import Mathlib

/-!
Shallow embedding of the SWC plugin in `packages/core/swc-plugin/src/lib.rs`
(the `rask-ui` compiler transform), together with theorems checking the
natural-language specification against it.

The AST types below mirror the fragment of the `swc_core` ECMAScript AST that
the plugin consults: every field the Rust code reads or constructs is present;
fields the plugin never touches (spans, syntax contexts, type annotations,
decorators that are always empty) are omitted or collapsed into opaque
constructors such as `Expr.otherExpr`.
-/

set_option maxHeartbeats 1000000

namespace Rask

/-- An ECMAScript identifier.  `isPrivate` records whether the identifier was
produced by `private_ident!` (a fresh hygienic binding) as opposed to
`quote_ident!` / user source. -/
structure Ident where
  sym : String
  isPrivate : Bool
  deriving DecidableEq, Repr

/-- The `quote_ident!(s)` of the Rust source: a plain identifier. -/
def quote_ident (s : String) : Ident := ⟨s, false⟩

/-- The `private_ident!(s)` of the Rust source: a hygienic private identifier. -/
def private_ident (s : String) : Ident := ⟨s, true⟩

/-- Binding patterns: the plugin only distinguishes `Pat::Ident` from
everything else. -/
inductive Pat where
  | ident (id : Ident)
  | otherPat
  deriving DecidableEq, Repr

mutual

/-- Expressions (the variants `has_vnode_call` and the visitor dispatch on;
`otherExpr` stands for every other expression shape, `lit` for literals,
`taggedTpl` for a tagged template, both falling into the `_ => false` arm of
`has_vnode_call`). -/
inductive Expr where
  | callExpr (callee : Callee) (args : List Expr)
  | identE (id : Ident)
  | lit (value : String)
  | paren (e : Expr)
  | cond (test cons alt : Expr)
  | bin (op : String) (left right : Expr)
  | array (elems : List (Option Expr))
  | arrow (a : ArrowExpr)
  | member (obj : Expr) (prop : String)
  | unary (op : String) (arg : Expr)
  | fnExpr (ident : Option Ident) (function : Function)
  | classE (ce : ClassExpr)
  | taggedTpl (tag : Expr)
  | otherExpr

/-- The `Callee`: an expression, `super`, or `import`. -/
inductive Callee where
  | expr (e : Expr)
  | superCallee
  | importCallee

/-- The `ArrowExpr`: params, body, `is_async`, `is_generator`. -/
inductive ArrowExpr where
  | mk (params : List Pat) (body : BlockStmtOrExpr) (is_async : Bool) (is_generator : Bool)

/-- An arrow-function body: block or bare expression. -/
inductive BlockStmtOrExpr where
  | blockStmt (stmts : List Stmt)
  | expr (e : Expr)

/-- The `Function`: params, optional body (the statement list of a block), generator and
async flags. -/
inductive Function where
  | mk (params : List Pat) (body : Option (List Stmt)) (is_generator : Bool) (is_async : Bool)

/-- The `ClassExpr`: optional name plus the class. -/
inductive ClassExpr where
  | mk (ident : Option Ident) (cls : Class)

/-- The `Class`: member list, optional superclass expression, `is_abstract`
(always `false` in nodes the plugin builds). -/
inductive Class where
  | mk (body : List ClassMember) (super_class : Option Expr) (is_abstract : Bool)

/-- Class members: the plugin only builds instance `ClassProp`s with an
identifier key. -/
inductive ClassMember where
  | classProp (key : String) (value : Option Expr) (is_static : Bool)
  | otherMember

/-- Statements (the variants `stmt_has_vnode_return` and the visitor dispatch
on; `otherStmt` stands for every other statement kind). -/
inductive Stmt where
  | ret (arg : Option Expr)
  | declS (d : Decl)
  | ifS (test : Expr) (cons : Stmt) (alt : Option Stmt)
  | block (stmts : List Stmt)
  | switchS (disc : Expr) (cases : List SwitchCase)
  | tryS (blk : List Stmt) (handler : Option (List Stmt)) (finalizer : Option (List Stmt))
  | forS (body : Stmt)
  | forInS (body : Stmt)
  | forOfS (body : Stmt)
  | whileS (test : Expr) (body : Stmt)
  | doWhileS (body : Stmt) (test : Expr)
  | labeled (label : String) (body : Stmt)
  | exprStmt (e : Expr)
  | otherStmt

/-- A `switch` case: optional test expression and consequent statements. -/
inductive SwitchCase where
  | mk (test : Option Expr) (cons : List Stmt)

/-- Declarations: function, variable, class, other. -/
inductive Decl where
  | fnD (ident : Ident) (function : Function)
  | varD (decls : List VarDeclarator)
  | classD (ident : Ident) (cls : Class)
  | otherDecl

/-- One `VarDeclarator`: binding pattern and optional initializer. -/
inductive VarDeclarator where
  | mk (name : Pat) (init : Option Expr)

end

/-- The `ModuleExportName`: identifier or string. -/
inductive ModuleExportName where
  | identME (id : Ident)
  | strME (s : String)
  deriving DecidableEq, Repr

/-- Import specifiers: named, default, namespace. -/
inductive ImportSpecifier where
  | named (localId : Ident) (imported : Option ModuleExportName) (is_type_only : Bool)
  | defaultS (localId : Ident)
  | namespaceS (localId : Ident)
  deriving DecidableEq, Repr

/-- The `DefaultDecl` of an `export default` declaration. -/
inductive DefaultDecl where
  | fnED (ident : Option Ident) (function : Function)
  | classED (ce : ClassExpr)
  | otherED

/-- Module items: statements and the module declarations the plugin dispatches
on.  `importDecl` keeps the specifier list, source string and type-only flag. -/
inductive ModuleItem where
  | stmt (s : Stmt)
  | importDecl (specifiers : List ImportSpecifier) (src : String) (type_only : Bool)
  | exportDefaultDecl (decl : DefaultDecl)
  | exportDefaultExpr (e : Expr)
  | exportDecl (d : Decl)
  | otherModuleDecl

/-- A module is its ordered list of items. -/
abbrev Module := List ModuleItem

/-- Plugin configuration: the optional `importSource` string. -/
structure Config where
  (import_source : Option String)
  deriving DecidableEq, Repr

/-- The visitor state: configuration plus the two lazily created base-class
binding imports. -/
structure RaskComponentTransform where
  (config : Config)
  (import_rask_stateful_component : Option Ident)
  (import_rask_stateless_component : Option Ident)
  deriving DecidableEq, Repr

/-- The `RaskComponentTransform::new`. -/
def RaskComponentTransform.new (config : Config) : RaskComponentTransform :=
  ⟨config, none, none⟩

/-- The callee test at the top of `has_vnode_call`: a direct call to one of the
four marker names. -/
def callee_is_marker : Callee → Bool
  | .expr (.identE id) =>
      id.sym == "createVNode" || id.sym == "createComponentVNode" ||
      id.sym == "createFragment" || id.sym == "createTextVNode"
  | _ => false

mutual

/-- The `has_vnode_call`: recursive deep search for a VNode-creating call. -/
def has_vnode_call : Expr → Bool
  | .callExpr callee args =>
      callee_is_marker callee || has_vnode_call_list args
  | .paren e => has_vnode_call e
  | .cond _ cons alt => has_vnode_call cons || has_vnode_call alt
  | .bin _ left right => has_vnode_call left || has_vnode_call right
  | .array elems => has_vnode_call_elems elems
  | .arrow (.mk _ body _ _) =>
      match body with
      | .expr e => has_vnode_call e
      | .blockStmt blk => returns_have_vnode_call blk
  | .member obj _ => has_vnode_call obj
  | .unary _ arg => has_vnode_call arg
  | _ => false

/-- The `for arg in &call.args` loop of `has_vnode_call`. -/
def has_vnode_call_list : List Expr → Bool
  | [] => false
  | e :: rest => has_vnode_call e || has_vnode_call_list rest

/-- The `arr.elems.iter().any(..)` of `has_vnode_call` (elided elements are
non-matching). -/
def has_vnode_call_elems : List (Option Expr) → Bool
  | [] => false
  | none :: rest => has_vnode_call_elems rest
  | some e :: rest => has_vnode_call e || has_vnode_call_elems rest

/-- The block-bodied-arrow loop of `has_vnode_call`: only top-level `return`
arguments are inspected. -/
def returns_have_vnode_call : List Stmt → Bool
  | [] => false
  | .ret (some arg) :: rest => has_vnode_call arg || returns_have_vnode_call rest
  | _ :: rest => returns_have_vnode_call rest

end

/-- Is the expression an `Expr::Arrow`? (the `matches!` guard in
`is_stateless_component`). -/
def Expr.isArrowE : Expr → Bool
  | .arrow _ => true
  | _ => false

/-- The statement loop of `is_stateless_component`. -/
def stateless_ret_search : List Stmt → Bool
  | [] => false
  | .ret (some arg) :: rest =>
      (has_vnode_call arg && !arg.isArrowE) || stateless_ret_search rest
  | _ :: rest => stateless_ret_search rest

/-- The `is_stateless_component`: some top-level `return` directly yields a VNode
call (and is not an arrow function). -/
def is_stateless_component : Function → Bool
  | .mk _ (some body) _ _ => stateless_ret_search body
  | _ => false

mutual

/-- The `block_has_vnode_return`. -/
def block_has_vnode_return : List Stmt → Bool
  | [] => false
  | s :: rest => stmt_has_vnode_return s || block_has_vnode_return rest

/-- The `if let Some(alt) = &if_stmt.alt` step of `stmt_has_vnode_return`. -/
def opt_stmt_has_vnode_return : Option Stmt → Bool
  | some s => stmt_has_vnode_return s
  | none => false

/-- The `if let Some(handler/finalizer)` steps of the `Stmt::Try` arm. -/
def opt_block_has_vnode_return : Option (List Stmt) → Bool
  | some l => block_has_vnode_return l
  | none => false

/-- The `stmt_has_vnode_return`: nested-statement walk looking for a `return`
whose argument satisfies `has_vnode_call`. -/
def stmt_has_vnode_return : Stmt → Bool
  | .ret (some arg) => has_vnode_call arg
  | .ret none => false
  | .ifS _ cons alt =>
      stmt_has_vnode_return cons || opt_stmt_has_vnode_return alt
  | .block stmts => block_has_vnode_return stmts
  | .switchS _ cases => cases_have_vnode_return cases
  | .tryS blk handler finalizer =>
      block_has_vnode_return blk || opt_block_has_vnode_return handler ||
        opt_block_has_vnode_return finalizer
  | .forS body => stmt_has_vnode_return body
  | .forInS body => stmt_has_vnode_return body
  | .forOfS body => stmt_has_vnode_return body
  | .whileS _ body => stmt_has_vnode_return body
  | .doWhileS body _ => stmt_has_vnode_return body
  | .labeled _ body => stmt_has_vnode_return body
  | _ => false

/-- The case loop of the `Stmt::Switch` arm. -/
def cases_have_vnode_return : List SwitchCase → Bool
  | [] => false
  | .mk _ cons :: rest => block_has_vnode_return cons || cases_have_vnode_return rest

end

/-- The statement loop of `is_rask_component`: a top-level `return` of an
arrow function whose body contains a VNode call. -/
def rask_ret_search : List Stmt → Bool
  | [] => false
  | .ret (some (.arrow (.mk _ abody _ _))) :: rest =>
      (match abody with
       | .expr e => has_vnode_call e
       | .blockStmt blk => block_has_vnode_return blk) || rask_ret_search rest
  | _ :: rest => rask_ret_search rest

/-- The `is_rask_component` (the stateful-component test). -/
def is_rask_component : Function → Bool
  | .mk _ (some body) _ _ => rask_ret_search body
  | _ => false

/-- The `transform_to_stateful_class`: build
`class name extends RaskStatefulComponent { setup = function name() {...} }`,
creating the stateful base-class binding if it does not exist yet.  The Rust
source fills the `Option` slot when it is `None` and then unwraps it; here
that is expressed as `getD` followed by storing the result back. -/
def transform_to_stateful_class (t : RaskComponentTransform) (name : Ident)
    (func : Function) : RaskComponentTransform × Decl :=
  let super_class_ident :=
    t.import_rask_stateful_component.getD (private_ident "RaskStatefulComponent")
  let t := { t with import_rask_stateful_component := some super_class_ident }
  (t, Decl.classD name (Class.mk
    [ClassMember.classProp "setup" (some (Expr.fnExpr (some name) func)) false]
    (some (Expr.identE super_class_ident)) false))

/-- The `transform_to_stateless_class`: same shape with a `renderFn` property and
the stateless base-class binding. -/
def transform_to_stateless_class (t : RaskComponentTransform) (name : Ident)
    (func : Function) : RaskComponentTransform × Decl :=
  let super_class_ident :=
    t.import_rask_stateless_component.getD (private_ident "RaskStatelessComponent")
  let t := { t with import_rask_stateless_component := some super_class_ident }
  (t, Decl.classD name (Class.mk
    [ClassMember.classProp "renderFn" (some (Expr.fnExpr (some name) func)) false]
    (some (Expr.identE super_class_ident)) false))

/-- The `create_component_class_expr`: class expression used for variable
initializers and default exports; the property key and superclass binding are
selected by `is_stateful`. -/
def create_component_class_expr (t : RaskComponentTransform) (name : Ident)
    (func : Function) (is_stateful : Bool) : RaskComponentTransform × ClassExpr :=
  let (t, super_class_ident) :=
    if is_stateful then
      let id := t.import_rask_stateful_component.getD (private_ident "RaskStatefulComponent")
      ({ t with import_rask_stateful_component := some id }, id)
    else
      let id := t.import_rask_stateless_component.getD (private_ident "RaskStatelessComponent")
      ({ t with import_rask_stateless_component := some id }, id)
  let prop_key := if is_stateful then "setup" else "renderFn"
  (t, ClassExpr.mk (some name) (Class.mk
    [ClassMember.classProp prop_key (some (Expr.fnExpr (some name) func)) false]
    (some (Expr.identE super_class_ident)) false))

/-- The `arrow_to_function`: wrap an expression body in a block with a single
`return`, keep a block body unchanged; flags are carried over. -/
def arrow_to_function : ArrowExpr → Function
  | .mk params body is_async is_generator =>
      Function.mk params
        (some (match body with
               | .blockStmt blk => blk
               | .expr e => [Stmt.ret (some e)]))
        is_generator is_async

/-- The configured import source, defaulting to `"rask-ui"`. -/
def import_source_of (cfg : Config) : String := cfg.import_source.getD "rask-ui"

/-- The `rewrite_inferno_imports`: every import whose source is `"inferno"` has its
source replaced by `"<configuredSource>/compiler"`. -/
def rewrite_inferno_imports (t : RaskComponentTransform) (items : Module) : Module :=
  let compiler_import := import_source_of t.config ++ "/compiler"
  items.map fun item =>
    match item with
    | .importDecl specs src type_only =>
        if src = "inferno" then ModuleItem.importDecl specs compiler_import type_only
        else item
    | _ => item

/-- The existence check of `inject_runtime`: some import from `import_source`
has a *named* specifier whose imported name (or, when the imported name is not
an identifier, whose local name) equals `name`. -/
def import_exists (items : Module) (import_source : String) (name : String) : Bool :=
  items.any fun item =>
    match item with
    | .importDecl specs src _ =>
        src = import_source &&
          specs.any fun spec =>
            match spec with
            | .named localId imported _ =>
                (match imported with
                 | some (.identME id) => id.sym = name
                 | _ => localId.sym = name)
            | _ => false
    | _ => false

/-- The specifier accumulation of `inject_runtime`: for each base-class
binding created during the walk, a named specifier unless an equivalent
existing import is found. -/
def runtime_specifiers (t : RaskComponentTransform) (items : Module) : List ImportSpecifier :=
  let import_source := import_source_of t.config
  (match t.import_rask_stateful_component with
   | some stateful_ident =>
       if import_exists items import_source "RaskStatefulComponent" then []
       else [ImportSpecifier.named stateful_ident
               (some (ModuleExportName.identME (quote_ident "RaskStatefulComponent"))) false]
   | none => []) ++
  (match t.import_rask_stateless_component with
   | some stateless_ident =>
       if import_exists items import_source "RaskStatelessComponent" then []
       else [ImportSpecifier.named stateless_ident
               (some (ModuleExportName.identME (quote_ident "RaskStatelessComponent"))) false]
   | none => [])

/-- The `inject_runtime`: for each base-class binding created during the walk that
is not already imported, add a named specifier; if any specifier is needed,
prepend a single import declaration from the configured source. -/
def inject_runtime (t : RaskComponentTransform) (items : Module) : Module :=
  let import_source := import_source_of t.config
  let specifiers := runtime_specifiers t items
  if specifiers.isEmpty then items
  else ModuleItem.importDecl specifiers import_source false :: items

/-!
The visitor.  The `VisitMut` trait of `swc` drives a generic depth-first children
traversal; the plugin overrides `visit_mut_module`, `visit_mut_module_item`,
`visit_mut_stmt` and `visit_mut_function`.  Each function below is the
override where one exists and the derived children traversal otherwise
(`..._children` functions).  State is threaded explicitly.  The mutual
recursion is not structural (`visit_mut_function` re-visits the statements it
has just rewritten, and the statement visitor descends into freshly built
class expressions), so every function consumes one unit of fuel per call;
exhausted fuel returns the node and state unchanged.
-/

/-- The declarator rewriting loop in the `Stmt::Decl(Decl::Var(..))` arm of
`visit_mut_stmt`: an arrow-function initializer classified as a component is
replaced by a class expression when the binding is a simple identifier. -/
def var_decl_rewrite (t : RaskComponentTransform) :
    List VarDeclarator → RaskComponentTransform × List VarDeclarator
  | [] => (t, [])
  | VarDeclarator.mk name init :: rest =>
      let (t, d) :=
        match init with
        | some (.arrow a) =>
            let func := arrow_to_function a
            let is_stateful := is_rask_component func
            let is_stateless := is_stateless_component func
            if is_stateful || is_stateless then
              match name with
              | .ident ident_pat =>
                  let (t, ce) := create_component_class_expr t ident_pat func is_stateful
                  (t, VarDeclarator.mk name (some (Expr.classE ce)))
              | _ => (t, VarDeclarator.mk name init)
            else (t, VarDeclarator.mk name init)
        | _ => (t, VarDeclarator.mk name init)
      let (t, rest) := var_decl_rewrite t rest
      (t, d :: rest)

mutual

/-- Override `visit_mut_module_item`: dispatch on the supported declaration
shapes, rewriting in place and *returning without visiting children* on a
match; otherwise fall through to the children traversal. -/
def visit_mut_module_item : Nat → RaskComponentTransform → ModuleItem →
    RaskComponentTransform × ModuleItem
  | 0, t, item => (t, item)
  | n + 1, t, item =>
      match item with
      | .stmt (.declS (.fnD ident func)) =>
          if is_rask_component func then
            let (t, cd) := transform_to_stateful_class t ident func
            (t, ModuleItem.stmt (Stmt.declS cd))
          else if is_stateless_component func then
            let (t, cd) := transform_to_stateless_class t ident func
            (t, ModuleItem.stmt (Stmt.declS cd))
          else module_item_children n t item
      | .exportDefaultDecl (.fnED identOpt func) =>
          let is_stateful := is_rask_component func
          let is_stateless := is_stateless_component func
          if is_stateful || is_stateless then
            let name := identOpt.getD (quote_ident "DefaultComponent")
            let (t, ce) := create_component_class_expr t name func is_stateful
            (t, ModuleItem.exportDefaultDecl (DefaultDecl.classED ce))
          else module_item_children n t item
      | .exportDefaultExpr (.arrow a) =>
          let func := arrow_to_function a
          let is_stateful := is_rask_component func
          let is_stateless := is_stateless_component func
          if is_stateful || is_stateless then
            let name := quote_ident "DefaultComponent"
            let (t, ce) := create_component_class_expr t name func is_stateful
            (t, ModuleItem.exportDefaultExpr (Expr.classE ce))
          else module_item_children n t item
      | .exportDecl (.fnD ident func) =>
          if is_rask_component func then
            let (t, cd) := transform_to_stateful_class t ident func
            (t, ModuleItem.exportDecl cd)
          else if is_stateless_component func then
            let (t, cd) := transform_to_stateless_class t ident func
            (t, ModuleItem.exportDecl cd)
          else module_item_children n t item
      | _ => module_item_children n t item

/-- Derived children traversal for a module item. -/
def module_item_children : Nat → RaskComponentTransform → ModuleItem →
    RaskComponentTransform × ModuleItem
  | 0, t, item => (t, item)
  | n + 1, t, item =>
      match item with
      | .stmt s =>
          let (t, s) := visit_mut_stmt n t s
          (t, ModuleItem.stmt s)
      | .importDecl specs src type_only => (t, ModuleItem.importDecl specs src type_only)
      | .exportDefaultDecl d =>
          match d with
          | .fnED identOpt func =>
              let (t, func) := visit_mut_function n t func
              (t, ModuleItem.exportDefaultDecl (DefaultDecl.fnED identOpt func))
          | .classED (.mk identOpt cls) =>
              let (t, cls) := class_children n t cls
              (t, ModuleItem.exportDefaultDecl (DefaultDecl.classED (ClassExpr.mk identOpt cls)))
          | .otherED => (t, ModuleItem.exportDefaultDecl DefaultDecl.otherED)
      | .exportDefaultExpr e =>
          let (t, e) := visit_mut_expr n t e
          (t, ModuleItem.exportDefaultExpr e)
      | .exportDecl d =>
          let (t, d) := visit_mut_decl n t d
          (t, ModuleItem.exportDecl d)
      | .otherModuleDecl => (t, ModuleItem.otherModuleDecl)

/-- Override `visit_mut_stmt`: rewrite matched function declarations (early
return), rewrite arrow-initializer declarators in place and then continue into
children, and otherwise just visit children. -/
def visit_mut_stmt : Nat → RaskComponentTransform → Stmt →
    RaskComponentTransform × Stmt
  | 0, t, s => (t, s)
  | n + 1, t, s =>
      match s with
      | .declS (.fnD ident func) =>
          if is_rask_component func then
            let (t, cd) := transform_to_stateful_class t ident func
            (t, Stmt.declS cd)
          else if is_stateless_component func then
            let (t, cd) := transform_to_stateless_class t ident func
            (t, Stmt.declS cd)
          else stmt_children n t s
      | .declS (.varD decls) =>
          let (t, decls) := var_decl_rewrite t decls
          stmt_children n t (Stmt.declS (Decl.varD decls))
      | _ => stmt_children n t s

/-- Derived children traversal for a statement. -/
def stmt_children : Nat → RaskComponentTransform → Stmt →
    RaskComponentTransform × Stmt
  | 0, t, s => (t, s)
  | n + 1, t, s =>
      match s with
      | .ret arg =>
          let (t, arg) := visit_mut_opt_expr n t arg
          (t, Stmt.ret arg)
      | .declS d =>
          let (t, d) := visit_mut_decl n t d
          (t, Stmt.declS d)
      | .ifS test cons alt =>
          let (t, test) := visit_mut_expr n t test
          let (t, cons) := visit_mut_stmt n t cons
          let (t, alt) :=
            match alt with
            | some a =>
                let (t, a) := visit_mut_stmt n t a
                (t, some a)
            | none => (t, none)
          (t, Stmt.ifS test cons alt)
      | .block stmts =>
          let (t, stmts) := visit_mut_stmt_list n t stmts
          (t, Stmt.block stmts)
      | .switchS disc cases =>
          let (t, disc) := visit_mut_expr n t disc
          let (t, cases) := visit_mut_case_list n t cases
          (t, Stmt.switchS disc cases)
      | .tryS blk handler finalizer =>
          let (t, blk) := visit_mut_stmt_list n t blk
          let (t, handler) :=
            match handler with
            | some h =>
                let (t, h) := visit_mut_stmt_list n t h
                (t, some h)
            | none => (t, none)
          let (t, finalizer) :=
            match finalizer with
            | some f =>
                let (t, f) := visit_mut_stmt_list n t f
                (t, some f)
            | none => (t, none)
          (t, Stmt.tryS blk handler finalizer)
      | .forS body =>
          let (t, body) := visit_mut_stmt n t body
          (t, Stmt.forS body)
      | .forInS body =>
          let (t, body) := visit_mut_stmt n t body
          (t, Stmt.forInS body)
      | .forOfS body =>
          let (t, body) := visit_mut_stmt n t body
          (t, Stmt.forOfS body)
      | .whileS test body =>
          let (t, test) := visit_mut_expr n t test
          let (t, body) := visit_mut_stmt n t body
          (t, Stmt.whileS test body)
      | .doWhileS body test =>
          let (t, body) := visit_mut_stmt n t body
          let (t, test) := visit_mut_expr n t test
          (t, Stmt.doWhileS body test)
      | .labeled lbl body =>
          let (t, body) := visit_mut_stmt n t body
          (t, Stmt.labeled lbl body)
      | .exprStmt e =>
          let (t, e) := visit_mut_expr n t e
          (t, Stmt.exprStmt e)
      | .otherStmt => (t, Stmt.otherStmt)

/-- Derived `visit_mut_decl` (not overridden): visit children per variant. -/
def visit_mut_decl : Nat → RaskComponentTransform → Decl →
    RaskComponentTransform × Decl
  | 0, t, d => (t, d)
  | n + 1, t, d =>
      match d with
      | .fnD ident func =>
          let (t, func) := visit_mut_function n t func
          (t, Decl.fnD ident func)
      | .varD decls =>
          let (t, decls) := visit_mut_declarator_list n t decls
          (t, Decl.varD decls)
      | .classD ident cls =>
          let (t, cls) := class_children n t cls
          (t, Decl.classD ident cls)
      | .otherDecl => (t, Decl.otherDecl)

/-- Derived declarator-list traversal (children of a `VarDecl`). -/
def visit_mut_declarator_list : Nat → RaskComponentTransform → List VarDeclarator →
    RaskComponentTransform × List VarDeclarator
  | 0, t, l => (t, l)
  | n + 1, t, l =>
      match l with
      | [] => (t, [])
      | VarDeclarator.mk name init :: rest =>
          let (t, init) := visit_mut_opt_expr n t init
          let (t, rest) := visit_mut_declarator_list n t rest
          (t, VarDeclarator.mk name init :: rest)

/-- Override `visit_mut_function`: first visit every body statement with
`visit_mut_stmt`, then run the derived children traversal (which visits the
body statements a second time). -/
def visit_mut_function : Nat → RaskComponentTransform → Function →
    RaskComponentTransform × Function
  | 0, t, f => (t, f)
  | n + 1, t, f =>
      match f with
      | .mk params body g a =>
          let (t, body) :=
            match body with
            | some stmts =>
                let (t, stmts) := visit_mut_stmt_list n t stmts
                (t, some stmts)
            | none => (t, none)
          let (t, body) :=
            match body with
            | some stmts =>
                let (t, stmts) := visit_mut_stmt_list n t stmts
                (t, some stmts)
            | none => (t, none)
          (t, Function.mk params body g a)

/-- Derived statement-list traversal. -/
def visit_mut_stmt_list : Nat → RaskComponentTransform → List Stmt →
    RaskComponentTransform × List Stmt
  | 0, t, l => (t, l)
  | n + 1, t, l =>
      match l with
      | [] => (t, [])
      | s :: rest =>
          let (t, s) := visit_mut_stmt n t s
          let (t, rest) := visit_mut_stmt_list n t rest
          (t, s :: rest)

/-- Derived switch-case-list traversal. -/
def visit_mut_case_list : Nat → RaskComponentTransform → List SwitchCase →
    RaskComponentTransform × List SwitchCase
  | 0, t, l => (t, l)
  | n + 1, t, l =>
      match l with
      | [] => (t, [])
      | SwitchCase.mk test cons :: rest =>
          let (t, test) := visit_mut_opt_expr n t test
          let (t, cons) := visit_mut_stmt_list n t cons
          let (t, rest) := visit_mut_case_list n t rest
          (t, SwitchCase.mk test cons :: rest)

/-- Derived `visit_mut_expr` (not overridden): visit children per variant. -/
def visit_mut_expr : Nat → RaskComponentTransform → Expr →
    RaskComponentTransform × Expr
  | 0, t, e => (t, e)
  | n + 1, t, e =>
      match e with
      | .callExpr callee args =>
          let (t, callee) :=
            match callee with
            | .expr ce =>
                let (t, ce) := visit_mut_expr n t ce
                (t, Callee.expr ce)
            | .superCallee => (t, Callee.superCallee)
            | .importCallee => (t, Callee.importCallee)
          let (t, args) := visit_mut_expr_list n t args
          (t, Expr.callExpr callee args)
      | .identE id => (t, Expr.identE id)
      | .lit v => (t, Expr.lit v)
      | .paren pe =>
          let (t, pe) := visit_mut_expr n t pe
          (t, Expr.paren pe)
      | .cond c1 c2 c3 =>
          let (t, c1) := visit_mut_expr n t c1
          let (t, c2) := visit_mut_expr n t c2
          let (t, c3) := visit_mut_expr n t c3
          (t, Expr.cond c1 c2 c3)
      | .bin op l r =>
          let (t, l) := visit_mut_expr n t l
          let (t, r) := visit_mut_expr n t r
          (t, Expr.bin op l r)
      | .array elems =>
          let (t, elems) := visit_mut_elem_list n t elems
          (t, Expr.array elems)
      | .arrow (.mk params body is_async is_generator) =>
          let (t, body) :=
            match body with
            | .blockStmt stmts =>
                let (t, stmts) := visit_mut_stmt_list n t stmts
                (t, BlockStmtOrExpr.blockStmt stmts)
            | .expr be =>
                let (t, be) := visit_mut_expr n t be
                (t, BlockStmtOrExpr.expr be)
          (t, Expr.arrow (ArrowExpr.mk params body is_async is_generator))
      | .member obj prop =>
          let (t, obj) := visit_mut_expr n t obj
          (t, Expr.member obj prop)
      | .unary op arg =>
          let (t, arg) := visit_mut_expr n t arg
          (t, Expr.unary op arg)
      | .fnExpr identOpt func =>
          let (t, func) := visit_mut_function n t func
          (t, Expr.fnExpr identOpt func)
      | .classE (.mk identOpt cls) =>
          let (t, cls) := class_children n t cls
          (t, Expr.classE (ClassExpr.mk identOpt cls))
      | .taggedTpl tag =>
          let (t, tag) := visit_mut_expr n t tag
          (t, Expr.taggedTpl tag)
      | .otherExpr => (t, Expr.otherExpr)

/-- Derived expression-list traversal (call arguments). -/
def visit_mut_expr_list : Nat → RaskComponentTransform → List Expr →
    RaskComponentTransform × List Expr
  | 0, t, l => (t, l)
  | n + 1, t, l =>
      match l with
      | [] => (t, [])
      | e :: rest =>
          let (t, e) := visit_mut_expr n t e
          let (t, rest) := visit_mut_expr_list n t rest
          (t, e :: rest)

/-- Derived optional-expression traversal. -/
def visit_mut_opt_expr : Nat → RaskComponentTransform → Option Expr →
    RaskComponentTransform × Option Expr
  | 0, t, oe => (t, oe)
  | n + 1, t, oe =>
      match oe with
      | some e =>
          let (t, e) := visit_mut_expr n t e
          (t, some e)
      | none => (t, none)

/-- Derived array-element-list traversal. -/
def visit_mut_elem_list : Nat → RaskComponentTransform → List (Option Expr) →
    RaskComponentTransform × List (Option Expr)
  | 0, t, l => (t, l)
  | n + 1, t, l =>
      match l with
      | [] => (t, [])
      | oe :: rest =>
          let (t, oe) := visit_mut_opt_expr n t oe
          let (t, rest) := visit_mut_elem_list n t rest
          (t, oe :: rest)

/-- Derived class children traversal: superclass expression then members. -/
def class_children : Nat → RaskComponentTransform → Class →
    RaskComponentTransform × Class
  | 0, t, c => (t, c)
  | n + 1, t, Class.mk body super_class is_abstract =>
      let (t, body) := visit_mut_member_list n t body
      let (t, super_class) := visit_mut_opt_expr n t super_class
      (t, Class.mk body super_class is_abstract)

/-- Derived class-member-list traversal (property values are expressions). -/
def visit_mut_member_list : Nat → RaskComponentTransform → List ClassMember →
    RaskComponentTransform × List ClassMember
  | 0, t, l => (t, l)
  | n + 1, t, l =>
      match l with
      | [] => (t, [])
      | ClassMember.classProp key value is_static :: rest =>
          let (t, value) := visit_mut_opt_expr n t value
          let (t, rest) := visit_mut_member_list n t rest
          (t, ClassMember.classProp key value is_static :: rest)
      | ClassMember.otherMember :: rest =>
          let (t, rest) := visit_mut_member_list n t rest
          (t, ClassMember.otherMember :: rest)

/-- Derived module-item-list traversal (children of the module). -/
def visit_mut_module_items : Nat → RaskComponentTransform → List ModuleItem →
    RaskComponentTransform × List ModuleItem
  | 0, t, l => (t, l)
  | n + 1, t, l =>
      match l with
      | [] => (t, [])
      | item :: rest =>
          let (t, item) := visit_mut_module_item n t item
          let (t, rest) := visit_mut_module_items n t rest
          (t, item :: rest)

end

/-- Override `visit_mut_module`: visit all items, then rewrite the
declarations importing `"inferno"`, then inject the runtime imports. -/
def visit_mut_module (fuel : Nat) (t : RaskComponentTransform) (m : Module) :
    RaskComponentTransform × Module :=
  match fuel with
  | 0 => (t, m)
  | n + 1 =>
      let (t, m) := visit_mut_module_items n t m
      let m := rewrite_inferno_imports t m
      (t, inject_runtime t m)

/-- The `process_transform`: run the visitor on a module with a fresh state built
from the configuration, returning the rewritten module. -/
def process_transform (fuel : Nat) (config : Config) (m : Module) : Module :=
  (visit_mut_module fuel (RaskComponentTransform.new config) m).2

/-!
Claim C1: characterization of the marker-call detector

`MarkerReachable` is the specification-side reachability relation, written
from the words of the spec: a direct call to one of the four marker names is
reachable by descending into call arguments, parenthesized expressions, both
branches of a ternary, both operands of a binary/logical expression, present
array elements, the object of a member access, the operand of a unary
expression, and arrow functions (expression body, or top-level `return`
arguments of a block body).  No constructor exists for any other shape.
-/

/-- One of the four marker function names. -/
def MarkerName (s : String) : Prop :=
  s = "createVNode" ∨ s = "createComponentVNode" ∨
  s = "createFragment" ∨ s = "createTextVNode"

/-- Spec-side reachability of a direct marker call inside an expression. -/
inductive MarkerReachable : Expr → Prop where
  | direct (id : Ident) (args : List Expr) (hname : MarkerName id.sym) :
      MarkerReachable (Expr.callExpr (Callee.expr (Expr.identE id)) args)
  | callArg (callee : Callee) (args : List Expr) (e : Expr) (hmem : e ∈ args)
      (h : MarkerReachable e) : MarkerReachable (Expr.callExpr callee args)
  | parenE (e : Expr) (h : MarkerReachable e) : MarkerReachable (Expr.paren e)
  | condCons (test cons alt : Expr) (h : MarkerReachable cons) :
      MarkerReachable (Expr.cond test cons alt)
  | condAlt (test cons alt : Expr) (h : MarkerReachable alt) :
      MarkerReachable (Expr.cond test cons alt)
  | binLeft (op : String) (l r : Expr) (h : MarkerReachable l) :
      MarkerReachable (Expr.bin op l r)
  | binRight (op : String) (l r : Expr) (h : MarkerReachable r) :
      MarkerReachable (Expr.bin op l r)
  | arrayElem (elems : List (Option Expr)) (e : Expr) (hmem : some e ∈ elems)
      (h : MarkerReachable e) : MarkerReachable (Expr.array elems)
  | arrowExprBody (params : List Pat) (e : Expr) (ia ig : Bool)
      (h : MarkerReachable e) :
      MarkerReachable (Expr.arrow (ArrowExpr.mk params (BlockStmtOrExpr.expr e) ia ig))
  | arrowBlockRet (params : List Pat) (stmts : List Stmt) (ia ig : Bool) (arg : Expr)
      (hmem : Stmt.ret (some arg) ∈ stmts) (h : MarkerReachable arg) :
      MarkerReachable (Expr.arrow (ArrowExpr.mk params (BlockStmtOrExpr.blockStmt stmts) ia ig))
  | memberObj (obj : Expr) (prop : String) (h : MarkerReachable obj) :
      MarkerReachable (Expr.member obj prop)
  | unaryArg (op : String) (arg : Expr) (h : MarkerReachable arg) :
      MarkerReachable (Expr.unary op arg)

/-- The `callee_is_marker` holds exactly for identifier callees with a marker name. -/
theorem callee_is_marker_iff (c : Callee) :
    callee_is_marker c = true ↔
      ∃ id, c = Callee.expr (Expr.identE id) ∧ MarkerName id.sym := by
  cases c with
  | expr e =>
      cases e <;> simp [callee_is_marker, MarkerName, Bool.or_eq_true, beq_iff_eq]
      tauto
  | superCallee => simp [callee_is_marker]
  | importCallee => simp [callee_is_marker]

/-- The call-argument loop succeeds iff some argument contains a marker call. -/
theorem has_vnode_call_list_iff (l : List Expr) :
    has_vnode_call_list l = true ↔ ∃ e ∈ l, has_vnode_call e = true := by
  induction l with
  | nil => simp [has_vnode_call_list]
  | cons e rest ih => simp [has_vnode_call_list, Bool.or_eq_true, ih]

/-- The array-element loop succeeds iff some present element contains a marker
call. -/
theorem has_vnode_call_elems_iff (l : List (Option Expr)) :
    has_vnode_call_elems l = true ↔ ∃ e, some e ∈ l ∧ has_vnode_call e = true := by
  induction l with
  | nil => simp [has_vnode_call_elems]
  | cons oe rest ih =>
      cases oe <;> simp [has_vnode_call_elems, Bool.or_eq_true, ih]

/-- The block-bodied-arrow loop succeeds iff some top-level `return` argument
contains a marker call. -/
theorem returns_have_vnode_call_iff (l : List Stmt) :
    returns_have_vnode_call l = true ↔
      ∃ a, Stmt.ret (some a) ∈ l ∧ has_vnode_call a = true := by
  induction l with
  | nil => simp [returns_have_vnode_call]
  | cons s rest ih =>
      cases s with
      | ret arg =>
          cases arg with
          | none => simp [returns_have_vnode_call, ih]
          | some a => simp [returns_have_vnode_call, Bool.or_eq_true, ih]
      | declS d => simp [returns_have_vnode_call, ih]
      | ifS test cons alt => simp [returns_have_vnode_call, ih]
      | block stmts => simp [returns_have_vnode_call, ih]
      | switchS disc cases => simp [returns_have_vnode_call, ih]
      | tryS blk handler finalizer => simp [returns_have_vnode_call, ih]
      | forS body => simp [returns_have_vnode_call, ih]
      | forInS body => simp [returns_have_vnode_call, ih]
      | forOfS body => simp [returns_have_vnode_call, ih]
      | whileS test body => simp [returns_have_vnode_call, ih]
      | doWhileS body test => simp [returns_have_vnode_call, ih]
      | labeled lbl body => simp [returns_have_vnode_call, ih]
      | exprStmt e => simp [returns_have_vnode_call, ih]
      | otherStmt => simp [returns_have_vnode_call, ih]

/-- Soundness half of C1, by strong induction on the size of the expression. -/
theorem hv_imp_mr : ∀ n : Nat, ∀ e : Expr, sizeOf e ≤ n →
    has_vnode_call e = true → MarkerReachable e := by
  intro n
  induction n using Nat.strong_induction_on with
  | _ n ih =>
    intro e hse h
    cases e with
    | callExpr callee args =>
        simp only [has_vnode_call, Bool.or_eq_true] at h
        rcases h with hm | hl
        · rcases (callee_is_marker_iff callee).mp hm with ⟨id, rfl, hname⟩
          exact MarkerReachable.direct id args hname
        · rcases (has_vnode_call_list_iff args).mp hl with ⟨e, hmem, he⟩
          have h1 := List.sizeOf_lt_of_mem hmem
          have h2 := Expr.callExpr.sizeOf_spec callee args
          exact MarkerReachable.callArg callee args e hmem
            (ih (sizeOf e) (by omega) e (le_refl _) he)
    | identE id => simp [has_vnode_call] at h
    | lit v => simp [has_vnode_call] at h
    | paren pe =>
        simp only [has_vnode_call] at h
        have h2 := Expr.paren.sizeOf_spec pe
        exact MarkerReachable.parenE pe (ih (sizeOf pe) (by omega) pe (le_refl _) h)
    | cond c1 c2 c3 =>
        simp only [has_vnode_call, Bool.or_eq_true] at h
        have h2 := Expr.cond.sizeOf_spec c1 c2 c3
        rcases h with h | h
        · exact MarkerReachable.condCons c1 c2 c3 (ih (sizeOf c2) (by omega) c2 (le_refl _) h)
        · exact MarkerReachable.condAlt c1 c2 c3 (ih (sizeOf c3) (by omega) c3 (le_refl _) h)
    | bin op l r =>
        simp only [has_vnode_call, Bool.or_eq_true] at h
        have h2 := Expr.bin.sizeOf_spec op l r
        rcases h with h | h
        · exact MarkerReachable.binLeft op l r (ih (sizeOf l) (by omega) l (le_refl _) h)
        · exact MarkerReachable.binRight op l r (ih (sizeOf r) (by omega) r (le_refl _) h)
    | array elems =>
        simp only [has_vnode_call] at h
        rcases (has_vnode_call_elems_iff elems).mp h with ⟨e, hmem, he⟩
        have h1 := List.sizeOf_lt_of_mem hmem
        have h2 := Expr.array.sizeOf_spec elems
        have h3 : sizeOf (some e) = 1 + sizeOf e := by simp
        exact MarkerReachable.arrayElem elems e hmem
          (ih (sizeOf e) (by omega) e (le_refl _) he)
    | arrow a =>
        cases a with
        | mk params body ia ig =>
            have h2 := Expr.arrow.sizeOf_spec (ArrowExpr.mk params body ia ig)
            have h3 := ArrowExpr.mk.sizeOf_spec params body ia ig
            cases body with
            | expr be =>
                simp only [has_vnode_call] at h
                have h4 := BlockStmtOrExpr.expr.sizeOf_spec be
                exact MarkerReachable.arrowExprBody params be ia ig
                  (ih (sizeOf be) (by omega) be (le_refl _) h)
            | blockStmt stmts =>
                simp only [has_vnode_call] at h
                rcases (returns_have_vnode_call_iff stmts).mp h with ⟨arg, hmem, harg⟩
                have h1 := List.sizeOf_lt_of_mem hmem
                have h4 := BlockStmtOrExpr.blockStmt.sizeOf_spec stmts
                have h5 := Stmt.ret.sizeOf_spec (some arg)
                have h6 : sizeOf (some arg) = 1 + sizeOf arg := by simp
                exact MarkerReachable.arrowBlockRet params stmts ia ig arg hmem
                  (ih (sizeOf arg) (by omega) arg (le_refl _) harg)
    | member obj prop =>
        simp only [has_vnode_call] at h
        have h2 := Expr.member.sizeOf_spec obj prop
        exact MarkerReachable.memberObj obj prop (ih (sizeOf obj) (by omega) obj (le_refl _) h)
    | unary op arg =>
        simp only [has_vnode_call] at h
        have h2 := Expr.unary.sizeOf_spec op arg
        exact MarkerReachable.unaryArg op arg (ih (sizeOf arg) (by omega) arg (le_refl _) h)
    | fnExpr identOpt func => simp [has_vnode_call] at h
    | classE ce => simp [has_vnode_call] at h
    | taggedTpl tag => simp [has_vnode_call] at h
    | otherExpr => simp [has_vnode_call] at h

/-- Completeness half of C1, by induction on the reachability derivation. -/
theorem mr_imp_hv : ∀ e : Expr, MarkerReachable e → has_vnode_call e = true := by
  intro e h
  induction h with
  | direct id args hname =>
      simp only [has_vnode_call, Bool.or_eq_true]
      exact Or.inl ((callee_is_marker_iff _).mpr ⟨id, rfl, hname⟩)
  | callArg callee args e hmem h ih =>
      simp only [has_vnode_call, Bool.or_eq_true]
      exact Or.inr ((has_vnode_call_list_iff args).mpr ⟨e, hmem, ih⟩)
  | parenE e h ih => simpa [has_vnode_call] using ih
  | condCons test cons alt h ih => simp [has_vnode_call, Bool.or_eq_true, ih]
  | condAlt test cons alt h ih => simp [has_vnode_call, Bool.or_eq_true, ih]
  | binLeft op l r h ih => simp [has_vnode_call, Bool.or_eq_true, ih]
  | binRight op l r h ih => simp [has_vnode_call, Bool.or_eq_true, ih]
  | arrayElem elems e hmem h ih =>
      simp only [has_vnode_call]
      exact (has_vnode_call_elems_iff elems).mpr ⟨e, hmem, ih⟩
  | arrowExprBody params e ia ig h ih => simpa [has_vnode_call] using ih
  | arrowBlockRet params stmts ia ig arg hmem h ih =>
      simp only [has_vnode_call]
      exact (returns_have_vnode_call_iff stmts).mpr ⟨arg, hmem, ih⟩
  | memberObj obj prop h ih => simpa [has_vnode_call] using ih
  | unaryArg op arg h ih => simpa [has_vnode_call] using ih

/-- C1: the marker-call detector `has_vnode_call` returns true for an
expression if and only if a direct call to one of the four names
`createVNode`, `createComponentVNode`, `createFragment`, `createTextVNode` is
reachable by recursively descending into call arguments, parenthesized
expressions, both branches of a ternary, both operands of a binary/logical
expression, present elements of an array literal, the object of a member
access, the operand of a unary expression, and arrow functions (for a
block-bodied arrow, only top-level `return` arguments); every other expression
shape yields false. -/
theorem C1_has_vnode_call_iff_marker_reachable (e : Expr) :
    has_vnode_call e = true ↔ MarkerReachable e :=
  ⟨hv_imp_mr (sizeOf e) e (le_refl _), mr_imp_hv e⟩

/-!
Claim C4: characterization of the nested-statement walk

`VNodeReturnReachable` is the specification-side relation: a `return`
statement whose argument satisfies the detector is reachable by descending
into both branches of `if`, nested blocks, every case body of a `switch`, the
`try` block / catch handler body / finalizer, loop bodies, and the inner
statement of a labeled statement.  No constructor exists for any other
statement kind.
-/

/-- Spec-side reachability of a qualifying `return` inside a statement. -/
inductive VNodeReturnReachable : Stmt → Prop where
  | retStmt (arg : Expr) (h : has_vnode_call arg = true) :
      VNodeReturnReachable (Stmt.ret (some arg))
  | ifCons (test : Expr) (cons : Stmt) (alt : Option Stmt)
      (h : VNodeReturnReachable cons) : VNodeReturnReachable (Stmt.ifS test cons alt)
  | ifAlt (test : Expr) (cons a : Stmt) (h : VNodeReturnReachable a) :
      VNodeReturnReachable (Stmt.ifS test cons (some a))
  | blockMem (stmts : List Stmt) (s : Stmt) (hmem : s ∈ stmts)
      (h : VNodeReturnReachable s) : VNodeReturnReachable (Stmt.block stmts)
  | switchCase (disc : Expr) (cases : List SwitchCase) (tst : Option Expr)
      (cs : List Stmt) (s : Stmt) (hcase : SwitchCase.mk tst cs ∈ cases)
      (hmem : s ∈ cs) (h : VNodeReturnReachable s) :
      VNodeReturnReachable (Stmt.switchS disc cases)
  | tryBlock (blk : List Stmt) (handler finalizer : Option (List Stmt)) (s : Stmt)
      (hmem : s ∈ blk) (h : VNodeReturnReachable s) :
      VNodeReturnReachable (Stmt.tryS blk handler finalizer)
  | tryHandler (blk hb : List Stmt) (finalizer : Option (List Stmt)) (s : Stmt)
      (hmem : s ∈ hb) (h : VNodeReturnReachable s) :
      VNodeReturnReachable (Stmt.tryS blk (some hb) finalizer)
  | tryFinal (blk : List Stmt) (handler : Option (List Stmt)) (fb : List Stmt) (s : Stmt)
      (hmem : s ∈ fb) (h : VNodeReturnReachable s) :
      VNodeReturnReachable (Stmt.tryS blk handler (some fb))
  | forBody (body : Stmt) (h : VNodeReturnReachable body) :
      VNodeReturnReachable (Stmt.forS body)
  | forInBody (body : Stmt) (h : VNodeReturnReachable body) :
      VNodeReturnReachable (Stmt.forInS body)
  | forOfBody (body : Stmt) (h : VNodeReturnReachable body) :
      VNodeReturnReachable (Stmt.forOfS body)
  | whileBody (test : Expr) (body : Stmt) (h : VNodeReturnReachable body) :
      VNodeReturnReachable (Stmt.whileS test body)
  | doWhileBody (body : Stmt) (test : Expr) (h : VNodeReturnReachable body) :
      VNodeReturnReachable (Stmt.doWhileS body test)
  | labeledBody (lbl : String) (body : Stmt) (h : VNodeReturnReachable body) :
      VNodeReturnReachable (Stmt.labeled lbl body)

/-- The block walk succeeds iff some statement of the block succeeds. -/
theorem block_has_vnode_return_iff (l : List Stmt) :
    block_has_vnode_return l = true ↔ ∃ s ∈ l, stmt_has_vnode_return s = true := by
  induction l with
  | nil => simp [block_has_vnode_return]
  | cons s rest ih => simp [block_has_vnode_return, Bool.or_eq_true, ih]

/-- The case loop succeeds iff some case body contains a qualifying statement. -/
theorem cases_have_vnode_return_iff (l : List SwitchCase) :
    cases_have_vnode_return l = true ↔
      ∃ tst cs, SwitchCase.mk tst cs ∈ l ∧ block_has_vnode_return cs = true := by
  induction l with
  | nil => simp [cases_have_vnode_return]
  | cons c rest ih =>
      cases c with
      | mk tst cs =>
          simp only [cases_have_vnode_return, Bool.or_eq_true, ih]
          constructor
          · rintro (hb | ⟨t, c, hm, hb⟩)
            · exact ⟨tst, cs, List.mem_cons_self _ _, hb⟩
            · exact ⟨t, c, List.mem_cons_of_mem _ hm, hb⟩
          · rintro ⟨t, c, hm, hb⟩
            rcases List.mem_cons.mp hm with heq | hm
            · injection heq with h1 h2
              subst h1; subst h2
              exact Or.inl hb
            · exact Or.inr ⟨t, c, hm, hb⟩

/-- Soundness half of C4, by strong induction on the size of the statement. -/
theorem svr_imp_vrr : ∀ n : Nat, ∀ s : Stmt, sizeOf s ≤ n →
    stmt_has_vnode_return s = true → VNodeReturnReachable s := by
  intro n
  induction n using Nat.strong_induction_on with
  | _ n ih =>
    intro s hss h
    cases s with
    | ret arg =>
        cases arg with
        | none => simp [stmt_has_vnode_return] at h
        | some a => exact VNodeReturnReachable.retStmt a (by simpa [stmt_has_vnode_return] using h)
    | declS d => simp [stmt_has_vnode_return] at h
    | ifS test cons alt =>
        simp only [stmt_has_vnode_return, Bool.or_eq_true] at h
        have h2 := Stmt.ifS.sizeOf_spec test cons alt
        rcases h with h | h
        · exact VNodeReturnReachable.ifCons test cons alt
            (ih (sizeOf cons) (by omega) cons (le_refl _) h)
        · cases alt with
          | none => simp [opt_stmt_has_vnode_return] at h
          | some a =>
              have h3 : sizeOf (some a) = 1 + sizeOf a := by simp
              exact VNodeReturnReachable.ifAlt test cons a
                (ih (sizeOf a) (by omega) a (le_refl _)
                  (by simpa [opt_stmt_has_vnode_return] using h))
    | block stmts =>
        simp only [stmt_has_vnode_return] at h
        rcases (block_has_vnode_return_iff stmts).mp h with ⟨s, hmem, hs⟩
        have h1 := List.sizeOf_lt_of_mem hmem
        have h2 := Stmt.block.sizeOf_spec stmts
        exact VNodeReturnReachable.blockMem stmts s hmem
          (ih (sizeOf s) (by omega) s (le_refl _) hs)
    | switchS disc cases =>
        simp only [stmt_has_vnode_return] at h
        rcases (cases_have_vnode_return_iff cases).mp h with ⟨tst, cs, hcase, hblk⟩
        rcases (block_has_vnode_return_iff cs).mp hblk with ⟨s, hmem, hs⟩
        have h1 := List.sizeOf_lt_of_mem hmem
        have h2 := List.sizeOf_lt_of_mem hcase
        have h3 := SwitchCase.mk.sizeOf_spec tst cs
        have h4 := Stmt.switchS.sizeOf_spec disc cases
        exact VNodeReturnReachable.switchCase disc cases tst cs s hcase hmem
          (ih (sizeOf s) (by omega) s (le_refl _) hs)
    | tryS blk handler finalizer =>
        simp only [stmt_has_vnode_return, Bool.or_eq_true] at h
        have h4 := Stmt.tryS.sizeOf_spec blk handler finalizer
        rcases h with (h | h) | h
        · rcases (block_has_vnode_return_iff blk).mp h with ⟨s, hmem, hs⟩
          have h1 := List.sizeOf_lt_of_mem hmem
          exact VNodeReturnReachable.tryBlock blk handler finalizer s hmem
            (ih (sizeOf s) (by omega) s (le_refl _) hs)
        · cases handler with
          | none => simp [opt_block_has_vnode_return] at h
          | some hb =>
              rcases (block_has_vnode_return_iff hb).mp
                  (by simpa [opt_block_has_vnode_return] using h) with ⟨s, hmem, hs⟩
              have h1 := List.sizeOf_lt_of_mem hmem
              have h3 : sizeOf (some hb) = 1 + sizeOf hb := by simp
              exact VNodeReturnReachable.tryHandler blk hb finalizer s hmem
                (ih (sizeOf s) (by omega) s (le_refl _) hs)
        · cases finalizer with
          | none => simp [opt_block_has_vnode_return] at h
          | some fb =>
              rcases (block_has_vnode_return_iff fb).mp
                  (by simpa [opt_block_has_vnode_return] using h) with ⟨s, hmem, hs⟩
              have h1 := List.sizeOf_lt_of_mem hmem
              have h3 : sizeOf (some fb) = 1 + sizeOf fb := by simp
              exact VNodeReturnReachable.tryFinal blk handler fb s hmem
                (ih (sizeOf s) (by omega) s (le_refl _) hs)
    | forS body =>
        simp only [stmt_has_vnode_return] at h
        have h2 := Stmt.forS.sizeOf_spec body
        exact VNodeReturnReachable.forBody body (ih (sizeOf body) (by omega) body (le_refl _) h)
    | forInS body =>
        simp only [stmt_has_vnode_return] at h
        have h2 := Stmt.forInS.sizeOf_spec body
        exact VNodeReturnReachable.forInBody body (ih (sizeOf body) (by omega) body (le_refl _) h)
    | forOfS body =>
        simp only [stmt_has_vnode_return] at h
        have h2 := Stmt.forOfS.sizeOf_spec body
        exact VNodeReturnReachable.forOfBody body (ih (sizeOf body) (by omega) body (le_refl _) h)
    | whileS test body =>
        simp only [stmt_has_vnode_return] at h
        have h2 := Stmt.whileS.sizeOf_spec test body
        exact VNodeReturnReachable.whileBody test body
          (ih (sizeOf body) (by omega) body (le_refl _) h)
    | doWhileS body test =>
        simp only [stmt_has_vnode_return] at h
        have h2 := Stmt.doWhileS.sizeOf_spec body test
        exact VNodeReturnReachable.doWhileBody body test
          (ih (sizeOf body) (by omega) body (le_refl _) h)
    | labeled lbl body =>
        simp only [stmt_has_vnode_return] at h
        have h2 := Stmt.labeled.sizeOf_spec lbl body
        exact VNodeReturnReachable.labeledBody lbl body
          (ih (sizeOf body) (by omega) body (le_refl _) h)
    | exprStmt e => simp [stmt_has_vnode_return] at h
    | otherStmt => simp [stmt_has_vnode_return] at h

/-- Completeness half of C4, by induction on the reachability derivation. -/
theorem vrr_imp_svr : ∀ s : Stmt, VNodeReturnReachable s → stmt_has_vnode_return s = true := by
  intro s h
  induction h with
  | retStmt arg h => simpa [stmt_has_vnode_return] using h
  | ifCons test cons alt h ih => simp [stmt_has_vnode_return, Bool.or_eq_true, ih]
  | ifAlt test cons a h ih =>
      simp [stmt_has_vnode_return, opt_stmt_has_vnode_return, Bool.or_eq_true, ih]
  | blockMem stmts s hmem h ih =>
      simp only [stmt_has_vnode_return]
      exact (block_has_vnode_return_iff stmts).mpr ⟨s, hmem, ih⟩
  | switchCase disc cases tst cs s hcase hmem h ih =>
      simp only [stmt_has_vnode_return]
      exact (cases_have_vnode_return_iff cases).mpr
        ⟨tst, cs, hcase, (block_has_vnode_return_iff cs).mpr ⟨s, hmem, ih⟩⟩
  | tryBlock blk handler finalizer s hmem h ih =>
      simp only [stmt_has_vnode_return, Bool.or_eq_true]
      exact Or.inl (Or.inl ((block_has_vnode_return_iff blk).mpr ⟨s, hmem, ih⟩))
  | tryHandler blk hb finalizer s hmem h ih =>
      simp only [stmt_has_vnode_return, Bool.or_eq_true]
      exact Or.inl (Or.inr (by
        simp only [opt_block_has_vnode_return]
        exact (block_has_vnode_return_iff hb).mpr ⟨s, hmem, ih⟩))
  | tryFinal blk handler fb s hmem h ih =>
      simp only [stmt_has_vnode_return, Bool.or_eq_true]
      exact Or.inr (by
        simp only [opt_block_has_vnode_return]
        exact (block_has_vnode_return_iff fb).mpr ⟨s, hmem, ih⟩)
  | forBody body h ih => simpa [stmt_has_vnode_return] using ih
  | forInBody body h ih => simpa [stmt_has_vnode_return] using ih
  | forOfBody body h ih => simpa [stmt_has_vnode_return] using ih
  | whileBody test body h ih => simpa [stmt_has_vnode_return] using ih
  | doWhileBody body test h ih => simpa [stmt_has_vnode_return] using ih
  | labeledBody lbl body h ih => simpa [stmt_has_vnode_return] using ih

/-- C4: the nested-statement walk `stmt_has_vnode_return` returns true if and
only if a `return` statement whose argument satisfies the detector is
reachable by descending into both branches of `if`, nested blocks, every case
body of a `switch`, the `try` block, catch handler body and finalizer, the
bodies of `for`, `for-in`, `for-of`, `while` and `do-while` loops, and the
inner statement of a labeled statement; any other statement kind ends that
branch without a match. -/
theorem C4_stmt_has_vnode_return_iff_reachable (s : Stmt) :
    stmt_has_vnode_return s = true ↔ VNodeReturnReachable s :=
  ⟨svr_imp_vrr (sizeOf s) s (le_refl _), vrr_imp_svr s⟩

/-!
Candidate-free trees

`..._no_cand` holds when no declaration reachable by the visitor matches
either classification (and hence the walk rewrites nothing).  The family
mirrors the traversal of the visitor.
-/

mutual

/-- No candidate anywhere inside the expression. -/
def expr_no_cand : Expr → Bool
  | .callExpr callee args => callee_no_cand callee && exprs_no_cand args
  | .identE _ => true
  | .lit _ => true
  | .paren e => expr_no_cand e
  | .cond a b c => expr_no_cand a && expr_no_cand b && expr_no_cand c
  | .bin _ l r => expr_no_cand l && expr_no_cand r
  | .array elems => elems_no_cand elems
  | .arrow (.mk _ body _ _) => arrow_body_no_cand body
  | .member obj _ => expr_no_cand obj
  | .unary _ e => expr_no_cand e
  | .fnExpr _ f => function_no_cand f
  | .classE (.mk _ c) => class_no_cand c
  | .taggedTpl e => expr_no_cand e
  | .otherExpr => true

/-- No candidate inside a callee. -/
def callee_no_cand : Callee → Bool
  | .expr e => expr_no_cand e
  | _ => true

/-- No candidate inside an optional expression. -/
def opt_expr_no_cand : Option Expr → Bool
  | some e => expr_no_cand e
  | none => true

/-- No candidate inside any expression of the list. -/
def exprs_no_cand : List Expr → Bool
  | [] => true
  | e :: rest => expr_no_cand e && exprs_no_cand rest

/-- No candidate inside any present array element. -/
def elems_no_cand : List (Option Expr) → Bool
  | [] => true
  | oe :: rest => opt_expr_no_cand oe && elems_no_cand rest

/-- No candidate inside an arrow-function body. -/
def arrow_body_no_cand : BlockStmtOrExpr → Bool
  | .blockStmt stmts => stmts_no_cand stmts
  | .expr e => expr_no_cand e

/-- No candidate inside a function body. -/
def function_no_cand : Function → Bool
  | .mk _ (some stmts) _ _ => stmts_no_cand stmts
  | .mk _ none _ _ => true

/-- No candidate inside a class. -/
def class_no_cand : Class → Bool
  | .mk body sup _ => members_no_cand body && opt_expr_no_cand sup

/-- No candidate inside any class member. -/
def members_no_cand : List ClassMember → Bool
  | [] => true
  | .classProp _ v _ :: rest => opt_expr_no_cand v && members_no_cand rest
  | .otherMember :: rest => members_no_cand rest

/-- No candidate inside any statement of the list. -/
def stmts_no_cand : List Stmt → Bool
  | [] => true
  | s :: rest => stmt_no_cand s && stmts_no_cand rest

/-- No candidate inside the statement (in particular, a function declaration
here matches neither classification). -/
def stmt_no_cand : Stmt → Bool
  | .ret a => opt_expr_no_cand a
  | .declS d => decl_no_cand d
  | .ifS tst c a => expr_no_cand tst && stmt_no_cand c && opt_stmt_no_cand a
  | .block stmts => stmts_no_cand stmts
  | .switchS disc cs => expr_no_cand disc && cases_no_cand cs
  | .tryS blk handler finalizer =>
      stmts_no_cand blk && opt_stmts_no_cand handler && opt_stmts_no_cand finalizer
  | .forS b => stmt_no_cand b
  | .forInS b => stmt_no_cand b
  | .forOfS b => stmt_no_cand b
  | .whileS tst b => expr_no_cand tst && stmt_no_cand b
  | .doWhileS b tst => stmt_no_cand b && expr_no_cand tst
  | .labeled _ b => stmt_no_cand b
  | .exprStmt e => expr_no_cand e
  | .otherStmt => true

/-- No candidate inside an optional statement. -/
def opt_stmt_no_cand : Option Stmt → Bool
  | some s => stmt_no_cand s
  | none => true

/-- No candidate inside an optional block. -/
def opt_stmts_no_cand : Option (List Stmt) → Bool
  | some l => stmts_no_cand l
  | none => true

/-- No candidate inside any switch case. -/
def cases_no_cand : List SwitchCase → Bool
  | [] => true
  | .mk tst cs :: rest => opt_expr_no_cand tst && stmts_no_cand cs && cases_no_cand rest

/-- No candidate inside the declaration; a function declaration must match
neither classification. -/
def decl_no_cand : Decl → Bool
  | .fnD _ f => !(is_rask_component f || is_stateless_component f) && function_no_cand f
  | .varD ds => declarators_no_cand ds
  | .classD _ c => class_no_cand c
  | .otherDecl => true

/-- No candidate inside any declarator. -/
def declarators_no_cand : List VarDeclarator → Bool
  | [] => true
  | d :: rest => declarator_no_cand d && declarators_no_cand rest

/-- No candidate inside the declarator; an arrow-function initializer must
match neither classification. -/
def declarator_no_cand : VarDeclarator → Bool
  | .mk _ (some (.arrow a)) =>
      !(is_rask_component (arrow_to_function a) ||
          is_stateless_component (arrow_to_function a)) &&
        expr_no_cand (Expr.arrow a)
  | .mk _ init => opt_expr_no_cand init

end

/-- No candidate inside the module item (function declarations, default
exports and arrow default exports must match neither classification). -/
def module_item_no_cand : ModuleItem → Bool
  | .stmt s => stmt_no_cand s
  | .importDecl _ _ _ => true
  | .exportDefaultDecl (.fnED _ f) =>
      !(is_rask_component f || is_stateless_component f) && function_no_cand f
  | .exportDefaultDecl (.classED (.mk _ c)) => class_no_cand c
  | .exportDefaultDecl .otherED => true
  | .exportDefaultExpr (.arrow a) =>
      !(is_rask_component (arrow_to_function a) ||
          is_stateless_component (arrow_to_function a)) &&
        expr_no_cand (Expr.arrow a)
  | .exportDefaultExpr e => expr_no_cand e
  | .exportDecl d => decl_no_cand d
  | .otherModuleDecl => true

/-- No candidate inside any item of the module. -/
def items_no_cand : Module → Bool
  | [] => true
  | item :: rest => module_item_no_cand item && items_no_cand rest

/-- Does the module contain an import whose source is `"inferno"`? -/
def module_has_inferno_import (items : Module) : Bool :=
  items.any fun item =>
    match item with
    | .importDecl _ src _ => src == "inferno"
    | _ => false

/-!
Concrete fixtures used by scenario claims and counterexamples
-/

/-- Fixture `function Counter() { return () => createComponentVNode(1, "div") }`. -/
def counterFn : Function :=
  Function.mk [] (some [Stmt.ret (some (Expr.arrow (ArrowExpr.mk []
    (BlockStmtOrExpr.expr (Expr.callExpr
      (Callee.expr (Expr.identE (quote_ident "createComponentVNode")))
      [Expr.lit "1", Expr.lit "div"])) false false)))]) false false

/-- A module consisting of the single declaration `counterFn`. -/
def counterModule : Module :=
  [ModuleItem.stmt (Stmt.declS (Decl.fnD (quote_ident "Counter") counterFn))]

/-- Fixture `function Inner() { return () => createVNode(1, "div") }`: a stateful
candidate. -/
def innerFn : Function :=
  Function.mk [] (some [Stmt.ret (some (Expr.arrow (ArrowExpr.mk []
    (BlockStmtOrExpr.expr (Expr.callExpr
      (Callee.expr (Expr.identE (quote_ident "createVNode")))
      [Expr.lit "1", Expr.lit "div"])) false false)))]) false false

/-- Fixture `function Outer() { function Inner() {...}  return () => createVNode(2, "span") }`:
a stateful candidate whose body declares the nested candidate `innerFn`. -/
def outerFn : Function :=
  Function.mk []
    (some [Stmt.declS (Decl.fnD (quote_ident "Inner") innerFn),
           Stmt.ret (some (Expr.arrow (ArrowExpr.mk []
             (BlockStmtOrExpr.expr (Expr.callExpr
               (Callee.expr (Expr.identE (quote_ident "createVNode")))
               [Expr.lit "2", Expr.lit "span"])) false false)))])
    false false

/-- A module whose only item is the top-level declaration of `outerFn`. -/
def nestedModule : Module :=
  [ModuleItem.stmt (Stmt.declS (Decl.fnD (quote_ident "Outer") outerFn))]

/-- Fixture `import x from "inferno";` and nothing else: no component candidates. -/
def infernoOnlyModule : Module :=
  [ModuleItem.importDecl [ImportSpecifier.defaultS (quote_ident "x")] "inferno" false]

/-!
Claim C2: the Counter scenario
-/

/-- C2: transforming `function Counter(){ return () => createComponentVNode(1,"div") }`
replaces the declaration with a class declaration named `Counter` extending
the stateful base-class binding, whose single member is an instance property
`setup` holding a function expression named `Counter` with the original body,
and prepends an import of `RaskStatefulComponent` from `"rask-ui"` (the
default configured source). -/
theorem C2_counter_scenario :
    process_transform 100 ⟨none⟩ counterModule =
      [ModuleItem.importDecl
         [ImportSpecifier.named (private_ident "RaskStatefulComponent")
            (some (ModuleExportName.identME (quote_ident "RaskStatefulComponent"))) false]
         "rask-ui" false,
       ModuleItem.stmt (Stmt.declS (Decl.classD (quote_ident "Counter")
         (Class.mk
           [ClassMember.classProp "setup"
              (some (Expr.fnExpr (some (quote_ident "Counter")) counterFn)) false]
           (some (Expr.identE (private_ident "RaskStatefulComponent"))) false)))] := rfl

/-!
Claims C5, C6, C7: counterexamples
-/

/-- Counterexample to C5 as stated: `Inner` is a stateful candidate nested in
the body of the matched top-level declaration `Outer`, yet after the transform
it is still a plain (unrewritten) function declaration inside the produced
produced `setup` function of the class — the rewrite did not fire for it in a single run. -/
theorem C5_counterexample_nested_candidate_skipped :
    is_rask_component innerFn = true ∧
    process_transform 100 ⟨none⟩ nestedModule =
      [ModuleItem.importDecl
         [ImportSpecifier.named (private_ident "RaskStatefulComponent")
            (some (ModuleExportName.identME (quote_ident "RaskStatefulComponent"))) false]
         "rask-ui" false,
       ModuleItem.stmt (Stmt.declS (Decl.classD (quote_ident "Outer")
         (Class.mk
           [ClassMember.classProp "setup"
              (some (Expr.fnExpr (some (quote_ident "Outer")) outerFn)) false]
           (some (Expr.identE (private_ident "RaskStatefulComponent"))) false)))] :=
  ⟨rfl, rfl⟩

/-- Observation used to separate the two runs on `nestedModule`: does the
second module item hold a class whose first member holds a function value that starts
with a *class* declaration (rather than the unrewritten function `Inner`)? -/
def setup_body_head_is_class : Module → Bool
  | _ :: ModuleItem.stmt (Stmt.declS (Decl.classD _ (Class.mk
      (ClassMember.classProp _ (some (Expr.fnExpr _ (Function.mk _
        (some (Stmt.declS (Decl.classD _ _) :: _)) _ _))) _ :: _) _ _))) :: _ => true
  | _ => false

/-- Counterexample to C6 as stated: running the transform a second time on the
output of the first run over `nestedModule` rewrites the left-behind nested
candidate `Inner` into a class, so the second run does change the module
further. -/
theorem C6_counterexample_not_idempotent :
    process_transform 100 ⟨none⟩ (process_transform 100 ⟨none⟩ nestedModule) ≠
      process_transform 100 ⟨none⟩ nestedModule :=
  fun h => absurd (congrArg setup_body_head_is_class h) (by decide)

/-- Counterexample to C7 as stated: `infernoOnlyModule` contains no matching
declaration, yet the transform rewrites its `"inferno"` import source, so the
module is not returned unchanged. -/
theorem C7_counterexample_inferno_rewritten :
    items_no_cand infernoOnlyModule = true ∧
    process_transform 100 ⟨none⟩ infernoOnlyModule =
      [ModuleItem.importDecl [ImportSpecifier.defaultS (quote_ident "x")]
        "rask-ui/compiler" false] ∧
    process_transform 100 ⟨none⟩ infernoOnlyModule ≠ infernoOnlyModule := by
  refine ⟨rfl, rfl, ?_⟩
  intro h
  rw [show process_transform 100 ⟨none⟩ infernoOnlyModule =
    [ModuleItem.importDecl [ImportSpecifier.defaultS (quote_ident "x")]
      "rask-ui/compiler" false] from rfl] at h
  simp [infernoOnlyModule] at h

/-!
State evolution

`state_evolves t t2` records how the visitor state may change across any part
of the walk: the configuration is untouched, and each base-class binding slot
is either passed through unchanged or filled (once, from `none`) with its
canonical private identifier.
-/

/-- Admissible evolution of the visitor state. -/
def state_evolves (t t2 : RaskComponentTransform) : Prop :=
  t2.config = t.config ∧
  (t2.import_rask_stateful_component = t.import_rask_stateful_component ∨
    (t.import_rask_stateful_component = none ∧
     t2.import_rask_stateful_component = some (private_ident "RaskStatefulComponent"))) ∧
  (t2.import_rask_stateless_component = t.import_rask_stateless_component ∨
    (t.import_rask_stateless_component = none ∧
     t2.import_rask_stateless_component = some (private_ident "RaskStatelessComponent")))

theorem state_evolves_refl (t : RaskComponentTransform) : state_evolves t t :=
  ⟨rfl, Or.inl rfl, Or.inl rfl⟩

theorem state_evolves_trans {t1 t2 t3 : RaskComponentTransform}
    (h12 : state_evolves t1 t2) (h23 : state_evolves t2 t3) : state_evolves t1 t3 := by
  obtain ⟨hc12, hf12, hl12⟩ := h12
  obtain ⟨hc23, hf23, hl23⟩ := h23
  refine ⟨hc23.trans hc12, ?_, ?_⟩
  · rcases hf23 with h | ⟨hn, hs⟩
    · rcases hf12 with h2 | ⟨hn2, hs2⟩
      · exact Or.inl (h.trans h2)
      · exact Or.inr ⟨hn2, h.trans hs2⟩
    · rcases hf12 with h2 | ⟨hn2, hs2⟩
      · exact Or.inr ⟨h2 ▸ hn, hs⟩
      · rw [hs2] at hn; exact absurd hn (by simp)
  · rcases hl23 with h | ⟨hn, hs⟩
    · rcases hl12 with h2 | ⟨hn2, hs2⟩
      · exact Or.inl (h.trans h2)
      · exact Or.inr ⟨hn2, h.trans hs2⟩
    · rcases hl12 with h2 | ⟨hn2, hs2⟩
      · exact Or.inr ⟨h2 ▸ hn, hs⟩
      · rw [hs2] at hn; exact absurd hn (by simp)

theorem transform_to_stateful_class_evolves (t : RaskComponentTransform)
    (name : Ident) (func : Function) :
    state_evolves t (transform_to_stateful_class t name func).1 := by
  cases h : t.import_rask_stateful_component with
  | none => exact ⟨rfl, Or.inr ⟨h, by simp [transform_to_stateful_class, h]⟩, Or.inl rfl⟩
  | some x => exact ⟨rfl, Or.inl (by simp [transform_to_stateful_class, h]), Or.inl rfl⟩

theorem transform_to_stateless_class_evolves (t : RaskComponentTransform)
    (name : Ident) (func : Function) :
    state_evolves t (transform_to_stateless_class t name func).1 := by
  cases h : t.import_rask_stateless_component with
  | none => exact ⟨rfl, Or.inl rfl, Or.inr ⟨h, by simp [transform_to_stateless_class, h]⟩⟩
  | some x => exact ⟨rfl, Or.inl rfl, Or.inl (by simp [transform_to_stateless_class, h])⟩

theorem create_component_class_expr_evolves (t : RaskComponentTransform)
    (name : Ident) (func : Function) (is_stateful : Bool) :
    state_evolves t (create_component_class_expr t name func is_stateful).1 := by
  cases is_stateful with
  | true =>
      cases h : t.import_rask_stateful_component with
      | none =>
          exact ⟨rfl, Or.inr ⟨h, by simp [create_component_class_expr, h]⟩, Or.inl rfl⟩
      | some x =>
          exact ⟨rfl, Or.inl (by simp [create_component_class_expr, h]), Or.inl rfl⟩
  | false =>
      cases h : t.import_rask_stateless_component with
      | none =>
          exact ⟨rfl, Or.inl rfl, Or.inr ⟨h, by simp [create_component_class_expr, h]⟩⟩
      | some x =>
          exact ⟨rfl, Or.inl rfl, Or.inl (by simp [create_component_class_expr, h])⟩

theorem var_decl_rewrite_evolves :
    ∀ (ds : List VarDeclarator) (t : RaskComponentTransform),
      state_evolves t (var_decl_rewrite t ds).1 := by
  intro ds
  induction ds with
  | nil => intro t; exact state_evolves_refl t
  | cons d rest ih =>
      intro t
      cases d with
      | mk name init =>
          simp only [var_decl_rewrite]
          rcases hd : (match init with
            | some (.arrow a) =>
                let func := arrow_to_function a
                let is_stateful := is_rask_component func
                let is_stateless := is_stateless_component func
                if is_stateful || is_stateless then
                  match name with
                  | .ident ident_pat =>
                      let (t, ce) := create_component_class_expr t ident_pat func is_stateful
                      (t, VarDeclarator.mk name (some (Expr.classE ce)))
                  | _ => (t, VarDeclarator.mk name init)
                else (t, VarDeclarator.mk name init)
            | _ => (t, VarDeclarator.mk name init) :
              RaskComponentTransform × VarDeclarator) with ⟨t1, d1⟩
          have e1 : state_evolves t t1 := by
            cases init with
            | none => cases hd; exact state_evolves_refl t
            | some e =>
                cases e with
                | arrow a =>
                    by_cases hc : (is_rask_component (arrow_to_function a) ||
                        is_stateless_component (arrow_to_function a)) = true
                    · cases name with
                      | ident ipat =>
                          rcases hce : create_component_class_expr t ipat
                              (arrow_to_function a)
                              (is_rask_component (arrow_to_function a)) with ⟨tc, ce⟩
                          have := create_component_class_expr_evolves t ipat
                            (arrow_to_function a) (is_rask_component (arrow_to_function a))
                          rw [hce] at this
                          simp only [hc, if_true, hce] at hd
                          cases hd
                          exact this
                      | otherPat =>
                          simp only [hc, if_true] at hd
                          cases hd
                          exact state_evolves_refl t
                    · simp only [Bool.not_eq_true] at hc
                      simp only [hc, Bool.false_eq_true, if_false] at hd
                      cases hd
                      exact state_evolves_refl t
                | callExpr callee args => cases hd; exact state_evolves_refl t
                | identE id => cases hd; exact state_evolves_refl t
                | lit v => cases hd; exact state_evolves_refl t
                | paren pe => cases hd; exact state_evolves_refl t
                | cond a b c => cases hd; exact state_evolves_refl t
                | bin op l r => cases hd; exact state_evolves_refl t
                | array elems => cases hd; exact state_evolves_refl t
                | member obj prop => cases hd; exact state_evolves_refl t
                | unary op arg => cases hd; exact state_evolves_refl t
                | fnExpr io f => cases hd; exact state_evolves_refl t
                | classE ce => cases hd; exact state_evolves_refl t
                | taggedTpl tag => cases hd; exact state_evolves_refl t
                | otherExpr => cases hd; exact state_evolves_refl t
          rcases hr : var_decl_rewrite t1 rest with ⟨t2, rest1⟩
          have e2 := ih t1
          rw [hr] at e2
          simp only [hd, hr]
          exact state_evolves_trans e1 e2

/-- Every visit function evolves the state admissibly (configuration
unchanged; each binding slot passed through or filled once with its canonical
identifier).  Proved for all sixteen mutually recursive visit functions at
once, by induction on the fuel. -/
theorem visit_state_evolves : ∀ n : Nat,
    (∀ t e, state_evolves t (visit_mut_expr n t e).1) ∧
    (∀ t l, state_evolves t (visit_mut_expr_list n t l).1) ∧
    (∀ t oe, state_evolves t (visit_mut_opt_expr n t oe).1) ∧
    (∀ t l, state_evolves t (visit_mut_elem_list n t l).1) ∧
    (∀ t f, state_evolves t (visit_mut_function n t f).1) ∧
    (∀ t s, state_evolves t (visit_mut_stmt n t s).1) ∧
    (∀ t s, state_evolves t (stmt_children n t s).1) ∧
    (∀ t l, state_evolves t (visit_mut_stmt_list n t l).1) ∧
    (∀ t cs, state_evolves t (visit_mut_case_list n t cs).1) ∧
    (∀ t d, state_evolves t (visit_mut_decl n t d).1) ∧
    (∀ t ds, state_evolves t (visit_mut_declarator_list n t ds).1) ∧
    (∀ t c, state_evolves t (class_children n t c).1) ∧
    (∀ t ms, state_evolves t (visit_mut_member_list n t ms).1) ∧
    (∀ t item, state_evolves t (visit_mut_module_item n t item).1) ∧
    (∀ t item, state_evolves t (module_item_children n t item).1) ∧
    (∀ t items, state_evolves t (visit_mut_module_items n t items).1) := by
  intro n
  induction n with
  | zero =>
      exact ⟨fun t _ => state_evolves_refl t, fun t _ => state_evolves_refl t,
        fun t _ => state_evolves_refl t, fun t _ => state_evolves_refl t,
        fun t _ => state_evolves_refl t, fun t _ => state_evolves_refl t,
        fun t _ => state_evolves_refl t, fun t _ => state_evolves_refl t,
        fun t _ => state_evolves_refl t, fun t _ => state_evolves_refl t,
        fun t _ => state_evolves_refl t, fun t _ => state_evolves_refl t,
        fun t _ => state_evolves_refl t, fun t _ => state_evolves_refl t,
        fun t _ => state_evolves_refl t, fun t _ => state_evolves_refl t⟩
  | succ n ih =>
      obtain ⟨ihE, ihEL, ihOE, ihAL, ihF, ihS, ihSC, ihSL, ihCL, ihD, ihDL,
        ihCC, ihML, ihMI, ihMIC, ihMIS⟩ := ih
      have hExpr : ∀ t e, state_evolves t (visit_mut_expr (n + 1) t e).1 := by
        intro t e
        cases e with
        | callExpr callee args =>
            cases callee with
            | expr ce =>
                rcases h1 : visit_mut_expr n t ce with ⟨t1, x1⟩
                rcases h2 : visit_mut_expr_list n t1 args with ⟨t2, x2⟩
                have e1 := ihE t ce; rw [h1] at e1
                have e2 := ihEL t1 args; rw [h2] at e2
                simp only [visit_mut_expr, h1, h2]
                exact state_evolves_trans e1 e2
            | superCallee =>
                rcases h2 : visit_mut_expr_list n t args with ⟨t2, x2⟩
                have e2 := ihEL t args; rw [h2] at e2
                simp only [visit_mut_expr, h2]
                exact e2
            | importCallee =>
                rcases h2 : visit_mut_expr_list n t args with ⟨t2, x2⟩
                have e2 := ihEL t args; rw [h2] at e2
                simp only [visit_mut_expr, h2]
                exact e2
        | identE id => exact state_evolves_refl t
        | lit v => exact state_evolves_refl t
        | paren pe =>
            rcases h1 : visit_mut_expr n t pe with ⟨t1, x1⟩
            have e1 := ihE t pe; rw [h1] at e1
            simp only [visit_mut_expr, h1]
            exact e1
        | cond c1 c2 c3 =>
            rcases h1 : visit_mut_expr n t c1 with ⟨t1, x1⟩
            rcases h2 : visit_mut_expr n t1 c2 with ⟨t2, x2⟩
            rcases h3 : visit_mut_expr n t2 c3 with ⟨t3, x3⟩
            have e1 := ihE t c1; rw [h1] at e1
            have e2 := ihE t1 c2; rw [h2] at e2
            have e3 := ihE t2 c3; rw [h3] at e3
            simp only [visit_mut_expr, h1, h2, h3]
            exact state_evolves_trans (state_evolves_trans e1 e2) e3
        | bin op l r =>
            rcases h1 : visit_mut_expr n t l with ⟨t1, x1⟩
            rcases h2 : visit_mut_expr n t1 r with ⟨t2, x2⟩
            have e1 := ihE t l; rw [h1] at e1
            have e2 := ihE t1 r; rw [h2] at e2
            simp only [visit_mut_expr, h1, h2]
            exact state_evolves_trans e1 e2
        | array elems =>
            rcases h1 : visit_mut_elem_list n t elems with ⟨t1, x1⟩
            have e1 := ihAL t elems; rw [h1] at e1
            simp only [visit_mut_expr, h1]
            exact e1
        | arrow a =>
            cases a with
            | mk params body ia ig =>
                cases body with
                | blockStmt stmts =>
                    rcases h1 : visit_mut_stmt_list n t stmts with ⟨t1, x1⟩
                    have e1 := ihSL t stmts; rw [h1] at e1
                    simp only [visit_mut_expr, h1]
                    exact e1
                | expr be =>
                    rcases h1 : visit_mut_expr n t be with ⟨t1, x1⟩
                    have e1 := ihE t be; rw [h1] at e1
                    simp only [visit_mut_expr, h1]
                    exact e1
        | member obj prop =>
            rcases h1 : visit_mut_expr n t obj with ⟨t1, x1⟩
            have e1 := ihE t obj; rw [h1] at e1
            simp only [visit_mut_expr, h1]
            exact e1
        | unary op arg =>
            rcases h1 : visit_mut_expr n t arg with ⟨t1, x1⟩
            have e1 := ihE t arg; rw [h1] at e1
            simp only [visit_mut_expr, h1]
            exact e1
        | fnExpr io f =>
            rcases h1 : visit_mut_function n t f with ⟨t1, x1⟩
            have e1 := ihF t f; rw [h1] at e1
            simp only [visit_mut_expr, h1]
            exact e1
        | classE ce =>
            cases ce with
            | mk io c =>
                rcases h1 : class_children n t c with ⟨t1, x1⟩
                have e1 := ihCC t c; rw [h1] at e1
                simp only [visit_mut_expr, h1]
                exact e1
        | taggedTpl tag =>
            rcases h1 : visit_mut_expr n t tag with ⟨t1, x1⟩
            have e1 := ihE t tag; rw [h1] at e1
            simp only [visit_mut_expr, h1]
            exact e1
        | otherExpr => exact state_evolves_refl t
      have hExprList : ∀ t l, state_evolves t (visit_mut_expr_list (n + 1) t l).1 := by
        intro t l
        cases l with
        | nil => exact state_evolves_refl t
        | cons e rest =>
            rcases h1 : visit_mut_expr n t e with ⟨t1, x1⟩
            rcases h2 : visit_mut_expr_list n t1 rest with ⟨t2, x2⟩
            have e1 := ihE t e; rw [h1] at e1
            have e2 := ihEL t1 rest; rw [h2] at e2
            simp only [visit_mut_expr_list, h1, h2]
            exact state_evolves_trans e1 e2
      have hOptExpr : ∀ t oe, state_evolves t (visit_mut_opt_expr (n + 1) t oe).1 := by
        intro t oe
        cases oe with
        | none => exact state_evolves_refl t
        | some e =>
            rcases h1 : visit_mut_expr n t e with ⟨t1, x1⟩
            have e1 := ihE t e; rw [h1] at e1
            simp only [visit_mut_opt_expr, h1]
            exact e1
      have hElemList : ∀ t l, state_evolves t (visit_mut_elem_list (n + 1) t l).1 := by
        intro t l
        cases l with
        | nil => exact state_evolves_refl t
        | cons oe rest =>
            rcases h1 : visit_mut_opt_expr n t oe with ⟨t1, x1⟩
            rcases h2 : visit_mut_elem_list n t1 rest with ⟨t2, x2⟩
            have e1 := ihOE t oe; rw [h1] at e1
            have e2 := ihAL t1 rest; rw [h2] at e2
            simp only [visit_mut_elem_list, h1, h2]
            exact state_evolves_trans e1 e2
      have hFunction : ∀ t f, state_evolves t (visit_mut_function (n + 1) t f).1 := by
        intro t f
        cases f with
        | mk params body g a =>
            cases body with
            | none => exact state_evolves_refl t
            | some stmts =>
                rcases h1 : visit_mut_stmt_list n t stmts with ⟨t1, x1⟩
                rcases h2 : visit_mut_stmt_list n t1 x1 with ⟨t2, x2⟩
                have e1 := ihSL t stmts; rw [h1] at e1
                have e2 := ihSL t1 x1; rw [h2] at e2
                simp only [visit_mut_function, h1, h2]
                exact state_evolves_trans e1 e2
      have hStmtChildren : ∀ t s, state_evolves t (stmt_children (n + 1) t s).1 := by
        intro t s
        cases s with
        | ret arg =>
            rcases h1 : visit_mut_opt_expr n t arg with ⟨t1, x1⟩
            have e1 := ihOE t arg; rw [h1] at e1
            simp only [stmt_children, h1]
            exact e1
        | declS d =>
            rcases h1 : visit_mut_decl n t d with ⟨t1, x1⟩
            have e1 := ihD t d; rw [h1] at e1
            simp only [stmt_children, h1]
            exact e1
        | ifS test cons alt =>
            rcases h1 : visit_mut_expr n t test with ⟨t1, x1⟩
            rcases h2 : visit_mut_stmt n t1 cons with ⟨t2, x2⟩
            have e1 := ihE t test; rw [h1] at e1
            have e2 := ihS t1 cons; rw [h2] at e2
            cases alt with
            | none =>
                simp only [stmt_children, h1, h2]
                exact state_evolves_trans e1 e2
            | some a =>
                rcases h3 : visit_mut_stmt n t2 a with ⟨t3, x3⟩
                have e3 := ihS t2 a; rw [h3] at e3
                simp only [stmt_children, h1, h2, h3]
                exact state_evolves_trans (state_evolves_trans e1 e2) e3
        | block stmts =>
            rcases h1 : visit_mut_stmt_list n t stmts with ⟨t1, x1⟩
            have e1 := ihSL t stmts; rw [h1] at e1
            simp only [stmt_children, h1]
            exact e1
        | switchS disc cases =>
            rcases h1 : visit_mut_expr n t disc with ⟨t1, x1⟩
            rcases h2 : visit_mut_case_list n t1 cases with ⟨t2, x2⟩
            have e1 := ihE t disc; rw [h1] at e1
            have e2 := ihCL t1 cases; rw [h2] at e2
            simp only [stmt_children, h1, h2]
            exact state_evolves_trans e1 e2
        | tryS blk handler finalizer =>
            rcases h1 : visit_mut_stmt_list n t blk with ⟨t1, x1⟩
            have e1 := ihSL t blk; rw [h1] at e1
            cases handler with
            | none =>
                cases finalizer with
                | none =>
                    simp only [stmt_children, h1]
                    exact e1
                | some fb =>
                    rcases h3 : visit_mut_stmt_list n t1 fb with ⟨t3, x3⟩
                    have e3 := ihSL t1 fb; rw [h3] at e3
                    simp only [stmt_children, h1, h3]
                    exact state_evolves_trans e1 e3
            | some hb =>
                rcases h2 : visit_mut_stmt_list n t1 hb with ⟨t2, x2⟩
                have e2 := ihSL t1 hb; rw [h2] at e2
                cases finalizer with
                | none =>
                    simp only [stmt_children, h1, h2]
                    exact state_evolves_trans e1 e2
                | some fb =>
                    rcases h3 : visit_mut_stmt_list n t2 fb with ⟨t3, x3⟩
                    have e3 := ihSL t2 fb; rw [h3] at e3
                    simp only [stmt_children, h1, h2, h3]
                    exact state_evolves_trans (state_evolves_trans e1 e2) e3
        | forS body =>
            rcases h1 : visit_mut_stmt n t body with ⟨t1, x1⟩
            have e1 := ihS t body; rw [h1] at e1
            simp only [stmt_children, h1]
            exact e1
        | forInS body =>
            rcases h1 : visit_mut_stmt n t body with ⟨t1, x1⟩
            have e1 := ihS t body; rw [h1] at e1
            simp only [stmt_children, h1]
            exact e1
        | forOfS body =>
            rcases h1 : visit_mut_stmt n t body with ⟨t1, x1⟩
            have e1 := ihS t body; rw [h1] at e1
            simp only [stmt_children, h1]
            exact e1
        | whileS test body =>
            rcases h1 : visit_mut_expr n t test with ⟨t1, x1⟩
            rcases h2 : visit_mut_stmt n t1 body with ⟨t2, x2⟩
            have e1 := ihE t test; rw [h1] at e1
            have e2 := ihS t1 body; rw [h2] at e2
            simp only [stmt_children, h1, h2]
            exact state_evolves_trans e1 e2
        | doWhileS body test =>
            rcases h1 : visit_mut_stmt n t body with ⟨t1, x1⟩
            rcases h2 : visit_mut_expr n t1 test with ⟨t2, x2⟩
            have e1 := ihS t body; rw [h1] at e1
            have e2 := ihE t1 test; rw [h2] at e2
            simp only [stmt_children, h1, h2]
            exact state_evolves_trans e1 e2
        | labeled lbl body =>
            rcases h1 : visit_mut_stmt n t body with ⟨t1, x1⟩
            have e1 := ihS t body; rw [h1] at e1
            simp only [stmt_children, h1]
            exact e1
        | exprStmt e =>
            rcases h1 : visit_mut_expr n t e with ⟨t1, x1⟩
            have e1 := ihE t e; rw [h1] at e1
            simp only [stmt_children, h1]
            exact e1
        | otherStmt => exact state_evolves_refl t
      have hStmt : ∀ t s, state_evolves t (visit_mut_stmt (n + 1) t s).1 := by
        intro t s
        cases s with
        | declS d =>
            cases d with
            | fnD ident func =>
                by_cases h1 : is_rask_component func = true
                · rcases htr : transform_to_stateful_class t ident func with ⟨t1, cd⟩
                  have e1 := transform_to_stateful_class_evolves t ident func
                  rw [htr] at e1
                  simp only [visit_mut_stmt, h1, if_true, htr]
                  exact e1
                · by_cases h2 : is_stateless_component func = true
                  · rcases htr : transform_to_stateless_class t ident func with ⟨t1, cd⟩
                    have e1 := transform_to_stateless_class_evolves t ident func
                    rw [htr] at e1
                    simp only [visit_mut_stmt, h1, h2, Bool.false_eq_true, if_false,
                      if_true, htr]
                    exact e1
                  · simp only [Bool.not_eq_true] at h1 h2
                    simp only [visit_mut_stmt, h1, h2, Bool.false_eq_true, if_false]
                    exact ihSC t _
            | varD ds =>
                rcases h1 : var_decl_rewrite t ds with ⟨t1, ds1⟩
                have e1 := var_decl_rewrite_evolves ds t
                rw [h1] at e1
                rcases h2 : stmt_children n t1 (Stmt.declS (Decl.varD ds1)) with ⟨t2, s2⟩
                have e2 := ihSC t1 (Stmt.declS (Decl.varD ds1)); rw [h2] at e2
                simp only [visit_mut_stmt, h1, h2]
                exact state_evolves_trans e1 e2
            | classD ident cls =>
                simp only [visit_mut_stmt]
                exact ihSC t _
            | otherDecl =>
                simp only [visit_mut_stmt]
                exact ihSC t _
        | ret arg => simp only [visit_mut_stmt]; exact ihSC t _
        | ifS test cons alt => simp only [visit_mut_stmt]; exact ihSC t _
        | block stmts => simp only [visit_mut_stmt]; exact ihSC t _
        | switchS disc cases => simp only [visit_mut_stmt]; exact ihSC t _
        | tryS blk handler finalizer => simp only [visit_mut_stmt]; exact ihSC t _
        | forS body => simp only [visit_mut_stmt]; exact ihSC t _
        | forInS body => simp only [visit_mut_stmt]; exact ihSC t _
        | forOfS body => simp only [visit_mut_stmt]; exact ihSC t _
        | whileS test body => simp only [visit_mut_stmt]; exact ihSC t _
        | doWhileS body test => simp only [visit_mut_stmt]; exact ihSC t _
        | labeled lbl body => simp only [visit_mut_stmt]; exact ihSC t _
        | exprStmt e => simp only [visit_mut_stmt]; exact ihSC t _
        | otherStmt => simp only [visit_mut_stmt]; exact ihSC t _
      have hStmtList : ∀ t l, state_evolves t (visit_mut_stmt_list (n + 1) t l).1 := by
        intro t l
        cases l with
        | nil => exact state_evolves_refl t
        | cons s rest =>
            rcases h1 : visit_mut_stmt n t s with ⟨t1, x1⟩
            rcases h2 : visit_mut_stmt_list n t1 rest with ⟨t2, x2⟩
            have e1 := ihS t s; rw [h1] at e1
            have e2 := ihSL t1 rest; rw [h2] at e2
            simp only [visit_mut_stmt_list, h1, h2]
            exact state_evolves_trans e1 e2
      have hCaseList : ∀ t cs, state_evolves t (visit_mut_case_list (n + 1) t cs).1 := by
        intro t cs
        cases cs with
        | nil => exact state_evolves_refl t
        | cons c rest =>
            cases c with
            | mk test cons =>
                rcases h1 : visit_mut_opt_expr n t test with ⟨t1, x1⟩
                rcases h2 : visit_mut_stmt_list n t1 cons with ⟨t2, x2⟩
                rcases h3 : visit_mut_case_list n t2 rest with ⟨t3, x3⟩
                have e1 := ihOE t test; rw [h1] at e1
                have e2 := ihSL t1 cons; rw [h2] at e2
                have e3 := ihCL t2 rest; rw [h3] at e3
                simp only [visit_mut_case_list, h1, h2, h3]
                exact state_evolves_trans (state_evolves_trans e1 e2) e3
      have hDecl : ∀ t d, state_evolves t (visit_mut_decl (n + 1) t d).1 := by
        intro t d
        cases d with
        | fnD ident func =>
            rcases h1 : visit_mut_function n t func with ⟨t1, x1⟩
            have e1 := ihF t func; rw [h1] at e1
            simp only [visit_mut_decl, h1]
            exact e1
        | varD ds =>
            rcases h1 : visit_mut_declarator_list n t ds with ⟨t1, x1⟩
            have e1 := ihDL t ds; rw [h1] at e1
            simp only [visit_mut_decl, h1]
            exact e1
        | classD ident cls =>
            rcases h1 : class_children n t cls with ⟨t1, x1⟩
            have e1 := ihCC t cls; rw [h1] at e1
            simp only [visit_mut_decl, h1]
            exact e1
        | otherDecl => exact state_evolves_refl t
      have hDeclList : ∀ t ds, state_evolves t (visit_mut_declarator_list (n + 1) t ds).1 := by
        intro t ds
        cases ds with
        | nil => exact state_evolves_refl t
        | cons d rest =>
            cases d with
            | mk name init =>
                rcases h1 : visit_mut_opt_expr n t init with ⟨t1, x1⟩
                rcases h2 : visit_mut_declarator_list n t1 rest with ⟨t2, x2⟩
                have e1 := ihOE t init; rw [h1] at e1
                have e2 := ihDL t1 rest; rw [h2] at e2
                simp only [visit_mut_declarator_list, h1, h2]
                exact state_evolves_trans e1 e2
      have hClass : ∀ t c, state_evolves t (class_children (n + 1) t c).1 := by
        intro t c
        cases c with
        | mk body sup isAbs =>
            rcases h1 : visit_mut_member_list n t body with ⟨t1, x1⟩
            rcases h2 : visit_mut_opt_expr n t1 sup with ⟨t2, x2⟩
            have e1 := ihML t body; rw [h1] at e1
            have e2 := ihOE t1 sup; rw [h2] at e2
            simp only [class_children, h1, h2]
            exact state_evolves_trans e1 e2
      have hMemberList : ∀ t ms, state_evolves t (visit_mut_member_list (n + 1) t ms).1 := by
        intro t ms
        cases ms with
        | nil => exact state_evolves_refl t
        | cons m rest =>
            cases m with
            | classProp key value isStatic =>
                rcases h1 : visit_mut_opt_expr n t value with ⟨t1, x1⟩
                rcases h2 : visit_mut_member_list n t1 rest with ⟨t2, x2⟩
                have e1 := ihOE t value; rw [h1] at e1
                have e2 := ihML t1 rest; rw [h2] at e2
                simp only [visit_mut_member_list, h1, h2]
                exact state_evolves_trans e1 e2
            | otherMember =>
                rcases h2 : visit_mut_member_list n t rest with ⟨t2, x2⟩
                have e2 := ihML t rest; rw [h2] at e2
                simp only [visit_mut_member_list, h2]
                exact e2
      have hItemChildren : ∀ t item, state_evolves t (module_item_children (n + 1) t item).1 := by
        intro t item
        cases item with
        | stmt s =>
            rcases h1 : visit_mut_stmt n t s with ⟨t1, x1⟩
            have e1 := ihS t s; rw [h1] at e1
            simp only [module_item_children, h1]
            exact e1
        | importDecl specs src ty => exact state_evolves_refl t
        | exportDefaultDecl d =>
            cases d with
            | fnED io func =>
                rcases h1 : visit_mut_function n t func with ⟨t1, x1⟩
                have e1 := ihF t func; rw [h1] at e1
                simp only [module_item_children, h1]
                exact e1
            | classED ce =>
                cases ce with
                | mk io cls =>
                    rcases h1 : class_children n t cls with ⟨t1, x1⟩
                    have e1 := ihCC t cls; rw [h1] at e1
                    simp only [module_item_children, h1]
                    exact e1
            | otherED => exact state_evolves_refl t
        | exportDefaultExpr e =>
            rcases h1 : visit_mut_expr n t e with ⟨t1, x1⟩
            have e1 := ihE t e; rw [h1] at e1
            simp only [module_item_children, h1]
            exact e1
        | exportDecl d =>
            rcases h1 : visit_mut_decl n t d with ⟨t1, x1⟩
            have e1 := ihD t d; rw [h1] at e1
            simp only [module_item_children, h1]
            exact e1
        | otherModuleDecl => exact state_evolves_refl t
      have hItem : ∀ t item, state_evolves t (visit_mut_module_item (n + 1) t item).1 := by
        intro t item
        cases item with
        | stmt s =>
            cases s with
            | declS d =>
                cases d with
                | fnD ident func =>
                    by_cases h1 : is_rask_component func = true
                    · rcases htr : transform_to_stateful_class t ident func with ⟨t1, cd⟩
                      have e1 := transform_to_stateful_class_evolves t ident func
                      rw [htr] at e1
                      simp only [visit_mut_module_item, h1, if_true, htr]
                      exact e1
                    · by_cases h2 : is_stateless_component func = true
                      · rcases htr : transform_to_stateless_class t ident func with ⟨t1, cd⟩
                        have e1 := transform_to_stateless_class_evolves t ident func
                        rw [htr] at e1
                        simp only [visit_mut_module_item, h1, h2, Bool.false_eq_true,
                          if_false, if_true, htr]
                        exact e1
                      · simp only [Bool.not_eq_true] at h1 h2
                        simp only [visit_mut_module_item, h1, h2, Bool.false_eq_true, if_false]
                        exact ihMIC t _
                | varD ds => simp only [visit_mut_module_item]; exact ihMIC t _
                | classD ident cls => simp only [visit_mut_module_item]; exact ihMIC t _
                | otherDecl => simp only [visit_mut_module_item]; exact ihMIC t _
            | ret arg => simp only [visit_mut_module_item]; exact ihMIC t _
            | ifS a b c => simp only [visit_mut_module_item]; exact ihMIC t _
            | block stmts => simp only [visit_mut_module_item]; exact ihMIC t _
            | switchS a b => simp only [visit_mut_module_item]; exact ihMIC t _
            | tryS a b c => simp only [visit_mut_module_item]; exact ihMIC t _
            | forS b => simp only [visit_mut_module_item]; exact ihMIC t _
            | forInS b => simp only [visit_mut_module_item]; exact ihMIC t _
            | forOfS b => simp only [visit_mut_module_item]; exact ihMIC t _
            | whileS a b => simp only [visit_mut_module_item]; exact ihMIC t _
            | doWhileS a b => simp only [visit_mut_module_item]; exact ihMIC t _
            | labeled a b => simp only [visit_mut_module_item]; exact ihMIC t _
            | exprStmt e => simp only [visit_mut_module_item]; exact ihMIC t _
            | otherStmt => simp only [visit_mut_module_item]; exact ihMIC t _
        | importDecl specs src ty => simp only [visit_mut_module_item]; exact ihMIC t _
        | exportDefaultDecl d =>
            cases d with
            | fnED io func =>
                by_cases h1 : (is_rask_component func || is_stateless_component func) = true
                · rcases hce : create_component_class_expr t
                      (io.getD (quote_ident "DefaultComponent")) func
                      (is_rask_component func) with ⟨t1, ce⟩
                  have e1 := create_component_class_expr_evolves t
                    (io.getD (quote_ident "DefaultComponent")) func (is_rask_component func)
                  rw [hce] at e1
                  simp only [visit_mut_module_item, h1, if_true, hce]
                  exact e1
                · simp only [visit_mut_module_item, h1, Bool.false_eq_true, if_false]
                  exact ihMIC t _
            | classED ce => simp only [visit_mut_module_item]; exact ihMIC t _
            | otherED => simp only [visit_mut_module_item]; exact ihMIC t _
        | exportDefaultExpr e =>
            cases e with
            | arrow a =>
                by_cases h1 : (is_rask_component (arrow_to_function a) ||
                    is_stateless_component (arrow_to_function a)) = true
                · rcases hce : create_component_class_expr t (quote_ident "DefaultComponent")
                      (arrow_to_function a)
                      (is_rask_component (arrow_to_function a)) with ⟨t1, ce⟩
                  have e1 := create_component_class_expr_evolves t
                    (quote_ident "DefaultComponent") (arrow_to_function a)
                    (is_rask_component (arrow_to_function a))
                  rw [hce] at e1
                  simp only [visit_mut_module_item, h1, if_true, hce]
                  exact e1
                · simp only [visit_mut_module_item, h1, Bool.false_eq_true, if_false]
                  exact ihMIC t _
            | callExpr callee args => simp only [visit_mut_module_item]; exact ihMIC t _
            | identE id => simp only [visit_mut_module_item]; exact ihMIC t _
            | lit v => simp only [visit_mut_module_item]; exact ihMIC t _
            | paren pe => simp only [visit_mut_module_item]; exact ihMIC t _
            | cond a b c => simp only [visit_mut_module_item]; exact ihMIC t _
            | bin op l r => simp only [visit_mut_module_item]; exact ihMIC t _
            | array elems => simp only [visit_mut_module_item]; exact ihMIC t _
            | member obj prop => simp only [visit_mut_module_item]; exact ihMIC t _
            | unary op arg => simp only [visit_mut_module_item]; exact ihMIC t _
            | fnExpr io f => simp only [visit_mut_module_item]; exact ihMIC t _
            | classE ce => simp only [visit_mut_module_item]; exact ihMIC t _
            | taggedTpl tag => simp only [visit_mut_module_item]; exact ihMIC t _
            | otherExpr => simp only [visit_mut_module_item]; exact ihMIC t _
        | exportDecl d =>
            cases d with
            | fnD ident func =>
                by_cases h1 : is_rask_component func = true
                · rcases htr : transform_to_stateful_class t ident func with ⟨t1, cd⟩
                  have e1 := transform_to_stateful_class_evolves t ident func
                  rw [htr] at e1
                  simp only [visit_mut_module_item, h1, if_true, htr]
                  exact e1
                · by_cases h2 : is_stateless_component func = true
                  · rcases htr : transform_to_stateless_class t ident func with ⟨t1, cd⟩
                    have e1 := transform_to_stateless_class_evolves t ident func
                    rw [htr] at e1
                    simp only [visit_mut_module_item, h1, h2, Bool.false_eq_true,
                      if_false, if_true, htr]
                    exact e1
                  · simp only [Bool.not_eq_true] at h1 h2
                    simp only [visit_mut_module_item, h1, h2, Bool.false_eq_true, if_false]
                    exact ihMIC t _
            | varD ds => simp only [visit_mut_module_item]; exact ihMIC t _
            | classD ident cls => simp only [visit_mut_module_item]; exact ihMIC t _
            | otherDecl => simp only [visit_mut_module_item]; exact ihMIC t _
        | otherModuleDecl => simp only [visit_mut_module_item]; exact ihMIC t _
      have hItems : ∀ t items, state_evolves t (visit_mut_module_items (n + 1) t items).1 := by
        intro t items
        cases items with
        | nil => exact state_evolves_refl t
        | cons item rest =>
            rcases h1 : visit_mut_module_item n t item with ⟨t1, x1⟩
            rcases h2 : visit_mut_module_items n t1 rest with ⟨t2, x2⟩
            have e1 := ihMI t item; rw [h1] at e1
            have e2 := ihMIS t1 rest; rw [h2] at e2
            simp only [visit_mut_module_items, h1, h2]
            exact state_evolves_trans e1 e2
      exact ⟨hExpr, hExprList, hOptExpr, hElemList, hFunction, hStmt, hStmtChildren,
        hStmtList, hCaseList, hDecl, hDeclList, hClass, hMemberList, hItem,
        hItemChildren, hItems⟩

/-- The item-list traversal maps items in place: the output list always has
the same length as the input. -/
theorem visit_mut_module_items_length : ∀ (n : Nat) (t : RaskComponentTransform)
    (items : Module), (visit_mut_module_items n t items).2.length = items.length := by
  intro n
  induction n with
  | zero => intro t items; rfl
  | succ n ih =>
      intro t items
      cases items with
      | nil => rfl
      | cons item rest =>
          rcases h1 : visit_mut_module_item n t item with ⟨t1, x1⟩
          rcases h2 : visit_mut_module_items n t1 rest with ⟨t2, x2⟩
          have hr := ih t1 rest
          rw [h2] at hr
          simp only [visit_mut_module_items, h1, h2, List.length_cons]
          simp [hr]

/-- The `inject_runtime` either returns the item list unchanged or prepends
exactly one import declaration from the configured source. -/
theorem inject_runtime_cases (t : RaskComponentTransform) (items : Module) :
    inject_runtime t items = items ∨
      ∃ specs, inject_runtime t items =
        ModuleItem.importDecl specs (import_source_of t.config) false :: items := by
  by_cases h : (runtime_specifiers t items).isEmpty
  · exact Or.inl (by simp [inject_runtime, h])
  · exact Or.inr ⟨runtime_specifiers t items, by simp [inject_runtime, h]⟩

/-- The inferno-import rewrite maps imports in place. -/
theorem rewrite_inferno_imports_length (t : RaskComponentTransform) (items : Module) :
    (rewrite_inferno_imports t items).length = items.length := by
  simp [rewrite_inferno_imports]

/-- The per-item map performed by `rewrite_inferno_imports` (factored out so
the in-place character of the pass can be stated pointwise): an import from
`"inferno"` gets the compiler source, everything else is untouched. -/
def inferno_item_map (compiler_import : String) : ModuleItem → ModuleItem
  | ModuleItem.importDecl specs src type_only =>
      if src = "inferno" then ModuleItem.importDecl specs compiler_import type_only
      else ModuleItem.importDecl specs src type_only
  | item => item

/-- The inferno pass is exactly the elementwise application of
`inferno_item_map` with the configured compiler source. -/
theorem rewrite_inferno_imports_eq_map (t : RaskComponentTransform) :
    ∀ items : Module, rewrite_inferno_imports t items =
      items.map (inferno_item_map (import_source_of t.config ++ "/compiler")) := by
  intro items
  induction items with
  | nil => rfl
  | cons item rest ih =>
      simp only [rewrite_inferno_imports, List.map_cons] at ih ⊢
      cases item with
      | importDecl specs src ty =>
          by_cases h : src = "inferno" <;> simp [inferno_item_map, h, ih]
      | stmt s => simp [inferno_item_map, ih]
      | exportDefaultDecl d => simp [inferno_item_map, ih]
      | exportDefaultExpr e => simp [inferno_item_map, ih]
      | exportDecl d => simp [inferno_item_map, ih]
      | otherModuleDecl => simp [inferno_item_map, ih]

/-- The item-list traversal rewrites each position in place: element `k` of
the output is the image of element `k` of the input under the module-item
dispatch (at some fuel and intermediate state). -/
theorem visit_mut_module_items_forall2 : ∀ (n : Nat) (t : RaskComponentTransform)
    (items : Module),
    List.Forall₂
      (fun a b => ∃ (k : Nat) (t0 : RaskComponentTransform),
        b = (visit_mut_module_item k t0 a).2)
      items (visit_mut_module_items n t items).2 := by
  intro n
  induction n with
  | zero =>
      intro t items
      refine List.forall₂_same.mpr ?_
      intro x _
      exact ⟨0, t, rfl⟩
  | succ n ih =>
      intro t items
      cases items with
      | nil => exact List.Forall₂.nil
      | cons item rest =>
          rcases h1 : visit_mut_module_item n t item with ⟨t1, x1⟩
          rcases h2 : visit_mut_module_items n t1 rest with ⟨t2, x2⟩
          have hr := ih t1 rest
          rw [h2] at hr
          simp only [visit_mut_module_items, h1, h2]
          exact List.Forall₂.cons ⟨n, t, by rw [h1]⟩ hr

/-- C9: for every module, configuration and fuel, the order of module items is
preserved by the transform except for at most one new import declaration
prepended at the very front: up to that one import, the output is a list
`core` of the same length as the input in which the element at every position
is the in-place image of the input element at the same position (the
module-item dispatch, possibly followed by the per-item inferno source
rewrite); at most one new import statement is ever inserted per module. -/
theorem C9_order_preserved_single_prepended_import (fuel : Nat) (cfg : Config) (m : Module) :
    ∃ core : Module, core.length = m.length ∧
      List.Forall₂
        (fun a b => ∃ (k : Nat) (t0 : RaskComponentTransform),
          b = (visit_mut_module_item k t0 a).2 ∨
          b = inferno_item_map (import_source_of cfg ++ "/compiler")
                ((visit_mut_module_item k t0 a).2))
        m core ∧
      (process_transform fuel cfg m = core ∨
        ∃ specs, process_transform fuel cfg m =
          ModuleItem.importDecl specs (import_source_of cfg) false :: core) := by
  cases fuel with
  | zero =>
      refine ⟨m, rfl, ?_, Or.inl rfl⟩
      refine List.forall₂_same.mpr ?_
      intro x _
      exact ⟨0, RaskComponentTransform.new cfg, Or.inl rfl⟩
  | succ n =>
      rcases hv : visit_mut_module_items n (RaskComponentTransform.new cfg) m with ⟨t1, items1⟩
      have hcfg : t1.config = cfg := by
        have h := (visit_state_evolves n).2.2.2.2.2.2.2.2.2.2.2.2.2.2.2
          (RaskComponentTransform.new cfg) m
        rw [hv] at h
        exact h.1
      have hf2 : List.Forall₂
          (fun a b => ∃ (k : Nat) (t0 : RaskComponentTransform),
            b = (visit_mut_module_item k t0 a).2) m items1 := by
        have h := visit_mut_module_items_forall2 n (RaskComponentTransform.new cfg) m
        rw [hv] at h
        exact h
      have hmap : rewrite_inferno_imports t1 items1 =
          items1.map (inferno_item_map (import_source_of cfg ++ "/compiler")) := by
        rw [rewrite_inferno_imports_eq_map t1 items1, hcfg]
      refine ⟨items1.map (inferno_item_map (import_source_of cfg ++ "/compiler")),
        ?_, ?_, ?_⟩
      · rw [List.length_map]
        exact hf2.length_eq.symm
      · rw [List.forall₂_map_right_iff]
        refine hf2.imp ?_
        intro a b hb
        obtain ⟨k, t0, hb⟩ := hb
        exact ⟨k, t0, Or.inr (by rw [hb])⟩
      · have hp : process_transform (n + 1) cfg m =
            inject_runtime t1 (rewrite_inferno_imports t1 items1) := by
          simp only [process_transform, visit_mut_module, hv]
        rcases inject_runtime_cases t1 (rewrite_inferno_imports t1 items1) with h | ⟨specs, h⟩
        · exact Or.inl (by rw [hp, h, hmap])
        · refine Or.inr ⟨specs, ?_⟩
          rw [hp, h, hmap, hcfg]

/-!
Claim C8: lazily created unique bindings, no duplicate injection
-/

/-- If an equivalent import of both base classes already exists, no specifier
is accumulated. -/
theorem runtime_specifiers_both_exist (t : RaskComponentTransform) (items : Module)
    (hf : import_exists items (import_source_of t.config) "RaskStatefulComponent" = true)
    (hl : import_exists items (import_source_of t.config) "RaskStatelessComponent" = true) :
    runtime_specifiers t items = [] := by
  unfold runtime_specifiers
  cases t.import_rask_stateful_component <;> cases t.import_rask_stateless_component <;>
    simp [hf, hl]

/-- If the stateful base class is already imported, the accumulated specifiers
contain at most the stateless one. -/
theorem runtime_specifiers_stateful_exists (t : RaskComponentTransform) (items : Module)
    (hf : import_exists items (import_source_of t.config) "RaskStatefulComponent" = true) :
    runtime_specifiers t items = [] ∨
      ∃ localId, runtime_specifiers t items =
        [ImportSpecifier.named localId
          (some (ModuleExportName.identME (quote_ident "RaskStatelessComponent"))) false] := by
  unfold runtime_specifiers
  cases hsl : t.import_rask_stateless_component with
  | none => cases t.import_rask_stateful_component <;> simp [hf]
  | some id =>
      by_cases hex : import_exists items (import_source_of t.config)
          "RaskStatelessComponent" = true
      · cases t.import_rask_stateful_component <;> simp [hf, hex]
      · refine Or.inr ⟨id, ?_⟩
        cases t.import_rask_stateful_component <;> simp [hf, hex]

/-- If the stateless base class is already imported, the accumulated
specifiers contain at most the stateful one. -/
theorem runtime_specifiers_stateless_exists (t : RaskComponentTransform) (items : Module)
    (hl : import_exists items (import_source_of t.config) "RaskStatelessComponent" = true) :
    runtime_specifiers t items = [] ∨
      ∃ localId, runtime_specifiers t items =
        [ImportSpecifier.named localId
          (some (ModuleExportName.identME (quote_ident "RaskStatefulComponent"))) false] := by
  unfold runtime_specifiers
  cases hsf : t.import_rask_stateful_component with
  | none => cases t.import_rask_stateless_component <;> simp [hl]
  | some id =>
      by_cases hex : import_exists items (import_source_of t.config)
          "RaskStatefulComponent" = true
      · cases t.import_rask_stateless_component <;> simp [hl, hex]
      · refine Or.inr ⟨id, ?_⟩
        cases t.import_rask_stateless_component <;> simp [hl, hex]

/-- The fixture state for the C8 witness: both bindings already allocated. -/
def t8 : RaskComponentTransform :=
  ⟨⟨none⟩, some (quote_ident "S"), some (quote_ident "L")⟩

/-- The fixture module for the C8 witness: both base classes already imported
from `"rask-ui"` (unaliased, matched by local name). -/
def m8 : Module :=
  [ModuleItem.importDecl
    [ImportSpecifier.named (quote_ident "RaskStatefulComponent") none false,
     ImportSpecifier.named (quote_ident "RaskStatelessComponent") none false]
    "rask-ui" false]

/-- C8: within one module transform, at most one base-class binding identifier
exists per classification — starting from a fresh state the walk leaves each
slot either empty or holding its one canonical identifier; an already-filled
slot is passed through unchanged by every rewrite, which reuses the stored
identifier as the superclass; and injection never duplicates an existing
named import of `RaskStatefulComponent` / `RaskStatelessComponent` from the
configured source. -/
theorem C8_unique_bindings_no_duplicate_injection :
    (∀ (fuel : Nat) (cfg : Config) (m : Module),
      ((visit_mut_module_items fuel (RaskComponentTransform.new cfg) m).1.import_rask_stateful_component
          = none ∨
       (visit_mut_module_items fuel (RaskComponentTransform.new cfg) m).1.import_rask_stateful_component
          = some (private_ident "RaskStatefulComponent")) ∧
      ((visit_mut_module_items fuel (RaskComponentTransform.new cfg) m).1.import_rask_stateless_component
          = none ∨
       (visit_mut_module_items fuel (RaskComponentTransform.new cfg) m).1.import_rask_stateless_component
          = some (private_ident "RaskStatelessComponent"))) ∧
    (∀ (t : RaskComponentTransform) (name : Ident) (func : Function) (x : Ident),
      t.import_rask_stateful_component = some x →
      transform_to_stateful_class t name func =
        (t, Decl.classD name (Class.mk
          [ClassMember.classProp "setup" (some (Expr.fnExpr (some name) func)) false]
          (some (Expr.identE x)) false))) ∧
    (∀ (t : RaskComponentTransform) (name : Ident) (func : Function) (x : Ident),
      t.import_rask_stateless_component = some x →
      transform_to_stateless_class t name func =
        (t, Decl.classD name (Class.mk
          [ClassMember.classProp "renderFn" (some (Expr.fnExpr (some name) func)) false]
          (some (Expr.identE x)) false))) ∧
    (∀ (t : RaskComponentTransform) (name : Ident) (func : Function) (x : Ident),
      t.import_rask_stateful_component = some x →
      create_component_class_expr t name func true =
        (t, ClassExpr.mk (some name) (Class.mk
          [ClassMember.classProp "setup" (some (Expr.fnExpr (some name) func)) false]
          (some (Expr.identE x)) false))) ∧
    (∀ (t : RaskComponentTransform) (name : Ident) (func : Function) (x : Ident),
      t.import_rask_stateless_component = some x →
      create_component_class_expr t name func false =
        (t, ClassExpr.mk (some name) (Class.mk
          [ClassMember.classProp "renderFn" (some (Expr.fnExpr (some name) func)) false]
          (some (Expr.identE x)) false))) ∧
    (∀ (t : RaskComponentTransform) (items : Module),
      (import_exists items (import_source_of t.config) "RaskStatefulComponent") = true →
      (import_exists items (import_source_of t.config) "RaskStatelessComponent") = true →
      inject_runtime t items = items) ∧
    (∀ (t : RaskComponentTransform) (items : Module),
      (import_exists items (import_source_of t.config) "RaskStatefulComponent") = true →
      inject_runtime t items = items ∨
        ∃ localId, inject_runtime t items =
          ModuleItem.importDecl
            [ImportSpecifier.named localId
              (some (ModuleExportName.identME (quote_ident "RaskStatelessComponent"))) false]
            (import_source_of t.config) false :: items) ∧
    (∀ (t : RaskComponentTransform) (items : Module),
      (import_exists items (import_source_of t.config) "RaskStatelessComponent") = true →
      inject_runtime t items = items ∨
        ∃ localId, inject_runtime t items =
          ModuleItem.importDecl
            [ImportSpecifier.named localId
              (some (ModuleExportName.identME (quote_ident "RaskStatefulComponent"))) false]
            (import_source_of t.config) false :: items) := by
  refine ⟨?_, ?_, ?_, ?_, ?_, ?_, ?_, ?_⟩
  · intro fuel cfg m
    have h := (visit_state_evolves fuel).2.2.2.2.2.2.2.2.2.2.2.2.2.2.2
      (RaskComponentTransform.new cfg) m
    obtain ⟨hc, hf, hl⟩ := h
    constructor
    · rcases hf with h | ⟨_, h⟩
      · exact Or.inl h
      · exact Or.inr h
    · rcases hl with h | ⟨_, h⟩
      · exact Or.inl h
      · exact Or.inr h
  · intro t name func x h
    cases t with
    | mk cfg sf sl =>
        simp only [RaskComponentTransform.import_rask_stateful_component] at h
        subst h
        simp [transform_to_stateful_class]
  · intro t name func x h
    cases t with
    | mk cfg sf sl =>
        simp only [RaskComponentTransform.import_rask_stateless_component] at h
        subst h
        simp [transform_to_stateless_class]
  · intro t name func x h
    cases t with
    | mk cfg sf sl =>
        simp only [RaskComponentTransform.import_rask_stateful_component] at h
        subst h
        simp [create_component_class_expr]
  · intro t name func x h
    cases t with
    | mk cfg sf sl =>
        simp only [RaskComponentTransform.import_rask_stateless_component] at h
        subst h
        simp [create_component_class_expr]
  · intro t items hf hl
    simp [inject_runtime, runtime_specifiers_both_exist t items hf hl]
  · intro t items hf
    rcases runtime_specifiers_stateful_exists t items hf with h | ⟨localId, h⟩
    · exact Or.inl (by simp [inject_runtime, h])
    · exact Or.inr ⟨localId, by simp [inject_runtime, h]⟩
  · intro t items hl
    rcases runtime_specifiers_stateless_exists t items hl with h | ⟨localId, h⟩
    · exact Or.inl (by simp [inject_runtime, h])
    · exact Or.inr ⟨localId, by simp [inject_runtime, h]⟩

/-- Witness for C8: concrete reuse of an already-allocated binding, and
injection into a module that already imports both base classes. -/
theorem C8_witness :
    t8.import_rask_stateful_component = some (quote_ident "S") ∧
    (import_exists m8 (import_source_of t8.config) "RaskStatefulComponent") = true ∧
    (import_exists m8 (import_source_of t8.config) "RaskStatelessComponent") = true ∧
    transform_to_stateful_class t8 (quote_ident "A") innerFn =
      (t8, Decl.classD (quote_ident "A") (Class.mk
        [ClassMember.classProp "setup"
          (some (Expr.fnExpr (some (quote_ident "A")) innerFn)) false]
        (some (Expr.identE (quote_ident "S"))) false)) ∧
    inject_runtime t8 m8 = m8 := by
  obtain ⟨h1, h2, h3, h4, h5, h6, h7, h8⟩ := C8_unique_bindings_no_duplicate_injection
  exact ⟨rfl, rfl, rfl, h2 t8 (quote_ident "A") innerFn (quote_ident "S") rfl,
    h6 t8 m8 rfl rfl⟩

/-- The stateful base-class binding a rewrite will use: the stored identifier,
or the canonical private identifier when the slot is still empty. -/
def stateful_binding (t : RaskComponentTransform) : Ident :=
  t.import_rask_stateful_component.getD (private_ident "RaskStatefulComponent")

/-!
Claim C3: stateful detection precedes stateless detection at every site
-/

/-- C3: at every dispatch site — statement-level function declaration,
module-item-level function declaration, exported function declaration,
default-exported function, default-exported arrow, and variable-bound arrow —
a candidate satisfying the stateful predicate is rewritten to the stateful
(`setup`) class regardless of whether the stateless predicate would also hold
(the statements below assume only `is_rask_component`); exactly one
classification is produced per candidate, as each site returns a single
rewritten node. -/
theorem C3_stateful_before_stateless_everywhere :
    (∀ (n : Nat) (t : RaskComponentTransform) (i : Ident) (f : Function),
      is_rask_component f = true →
      visit_mut_stmt (n + 1) t (Stmt.declS (Decl.fnD i f)) =
        ({ t with import_rask_stateful_component := some (stateful_binding t) },
         Stmt.declS (Decl.classD i (Class.mk
           [ClassMember.classProp "setup" (some (Expr.fnExpr (some i) f)) false]
           (some (Expr.identE (stateful_binding t)))
           false)))) ∧
    (∀ (n : Nat) (t : RaskComponentTransform) (i : Ident) (f : Function),
      is_rask_component f = true →
      visit_mut_module_item (n + 1) t (ModuleItem.stmt (Stmt.declS (Decl.fnD i f))) =
        ({ t with import_rask_stateful_component := some (stateful_binding t) },
         ModuleItem.stmt (Stmt.declS (Decl.classD i (Class.mk
           [ClassMember.classProp "setup" (some (Expr.fnExpr (some i) f)) false]
           (some (Expr.identE (stateful_binding t)))
           false))))) ∧
    (∀ (n : Nat) (t : RaskComponentTransform) (i : Ident) (f : Function),
      is_rask_component f = true →
      visit_mut_module_item (n + 1) t (ModuleItem.exportDecl (Decl.fnD i f)) =
        ({ t with import_rask_stateful_component := some (stateful_binding t) },
         ModuleItem.exportDecl (Decl.classD i (Class.mk
           [ClassMember.classProp "setup" (some (Expr.fnExpr (some i) f)) false]
           (some (Expr.identE (stateful_binding t)))
           false)))) ∧
    (∀ (n : Nat) (t : RaskComponentTransform) (io : Option Ident) (f : Function),
      is_rask_component f = true →
      visit_mut_module_item (n + 1) t (ModuleItem.exportDefaultDecl (DefaultDecl.fnED io f)) =
        ({ t with import_rask_stateful_component := some (stateful_binding t) },
         ModuleItem.exportDefaultDecl (DefaultDecl.classED (ClassExpr.mk
           (some (io.getD (quote_ident "DefaultComponent")))
           (Class.mk
             [ClassMember.classProp "setup"
               (some (Expr.fnExpr (some (io.getD (quote_ident "DefaultComponent"))) f)) false]
             (some (Expr.identE (stateful_binding t)))
             false))))) ∧
    (∀ (n : Nat) (t : RaskComponentTransform) (a : ArrowExpr),
      is_rask_component (arrow_to_function a) = true →
      visit_mut_module_item (n + 1) t (ModuleItem.exportDefaultExpr (Expr.arrow a)) =
        ({ t with import_rask_stateful_component := some (stateful_binding t) },
         ModuleItem.exportDefaultExpr (Expr.classE (ClassExpr.mk
           (some (quote_ident "DefaultComponent"))
           (Class.mk
             [ClassMember.classProp "setup"
               (some (Expr.fnExpr (some (quote_ident "DefaultComponent"))
                 (arrow_to_function a))) false]
             (some (Expr.identE (stateful_binding t)))
             false))))) ∧
    (∀ (t : RaskComponentTransform) (i : Ident) (a : ArrowExpr),
      is_rask_component (arrow_to_function a) = true →
      var_decl_rewrite t [VarDeclarator.mk (Pat.ident i) (some (Expr.arrow a))] =
        ({ t with import_rask_stateful_component := some (stateful_binding t) },
         [VarDeclarator.mk (Pat.ident i) (some (Expr.classE (ClassExpr.mk (some i)
           (Class.mk
             [ClassMember.classProp "setup"
               (some (Expr.fnExpr (some i) (arrow_to_function a))) false]
             (some (Expr.identE (stateful_binding t)))
             false))))])) := by
  refine ⟨?_, ?_, ?_, ?_, ?_, ?_⟩
  · intro n t i f h
    simp [visit_mut_stmt, h, transform_to_stateful_class, stateful_binding]
  · intro n t i f h
    simp [visit_mut_module_item, h, transform_to_stateful_class, stateful_binding]
  · intro n t i f h
    simp [visit_mut_module_item, h, transform_to_stateful_class, stateful_binding]
  · intro n t io f h
    simp [visit_mut_module_item, h, create_component_class_expr, stateful_binding]
  · intro n t a h
    simp [visit_mut_module_item, h, create_component_class_expr, stateful_binding]
  · intro t i a h
    simp [var_decl_rewrite, h, create_component_class_expr, stateful_binding]

/-- Witness for C3: the statement-level and variable-bound sites, instantiated
at the concrete stateful candidate `innerFn` (and an arrow with its body). -/
theorem C3_witness :
    is_rask_component innerFn = true ∧
    visit_mut_stmt 1 (RaskComponentTransform.new ⟨none⟩)
        (Stmt.declS (Decl.fnD (quote_ident "A") innerFn)) =
      (⟨⟨none⟩, some (private_ident "RaskStatefulComponent"), none⟩,
       Stmt.declS (Decl.classD (quote_ident "A") (Class.mk
         [ClassMember.classProp "setup"
           (some (Expr.fnExpr (some (quote_ident "A")) innerFn)) false]
         (some (Expr.identE (private_ident "RaskStatefulComponent"))) false))) := by
  obtain ⟨h1, _, _, _, _, _⟩ := C3_stateful_before_stateless_everywhere
  exact ⟨rfl, h1 0 (RaskComponentTransform.new ⟨none⟩) (quote_ident "A") innerFn rfl⟩

/-!
Claim C10: the existence check only sees named import specifiers
-/

/-- True when no import in the module uses a *named* specifier (only default
or namespace specifiers occur). -/
def no_named_specifier (items : Module) : Bool :=
  items.all fun item =>
    match item with
    | .importDecl specs _ _ =>
        specs.all fun sp =>
          match sp with
          | .named _ _ _ => false
          | _ => true
    | _ => true

/-- On a module without named import specifiers, the existence check never
fires, whatever the source and name. -/
theorem import_exists_no_named (src name : String) :
    ∀ items : Module, no_named_specifier items = true →
      (import_exists items src name) = false := by
  intro items
  induction items with
  | nil => intro _; rfl
  | cons item rest ih =>
      intro h
      simp only [no_named_specifier, List.all_cons, Bool.and_eq_true] at h
      obtain ⟨h1, h2⟩ := h
      have hrest : import_exists rest src name = false := ih h2
      simp only [import_exists, List.any_cons, Bool.or_eq_true] at hrest ⊢
      rw [Bool.or_eq_false_iff]
      refine ⟨?_, hrest⟩
      cases item with
      | importDecl specs isrc ty =>
          simp only [Bool.and_eq_false_iff]
          right
          rw [List.any_eq_false]
          intro sp hsp
          have hnn := (List.all_eq_true.mp h1) sp hsp
          cases sp with
          | named l i tyo => simp at hnn
          | defaultS l => simp
          | namespaceS l => simp
      | stmt s => rfl
      | exportDefaultDecl d => rfl
      | exportDefaultExpr e => rfl
      | exportDecl d => rfl
      | otherModuleDecl => rfl

/-- C10: the import-injection existence check inspects only named import
specifiers — a base-class name bound only through default or namespace imports
is not treated as existing, and whenever the corresponding binding was created
during the walk a named specifier for it is still injected (inside the single
prepended import). -/
theorem C10_existence_check_only_named_specifiers :
    (∀ (items : Module) (src name : String), no_named_specifier items = true →
      (import_exists items src name) = false) ∧
    (∀ (t : RaskComponentTransform) (items : Module) (id : Ident),
      no_named_specifier items = true →
      t.import_rask_stateful_component = some id →
      ∃ specs, inject_runtime t items =
          ModuleItem.importDecl specs (import_source_of t.config) false :: items ∧
        ImportSpecifier.named id
          (some (ModuleExportName.identME (quote_ident "RaskStatefulComponent"))) false ∈ specs) ∧
    (∀ (t : RaskComponentTransform) (items : Module) (id : Ident),
      no_named_specifier items = true →
      t.import_rask_stateless_component = some id →
      ∃ specs, inject_runtime t items =
          ModuleItem.importDecl specs (import_source_of t.config) false :: items ∧
        ImportSpecifier.named id
          (some (ModuleExportName.identME (quote_ident "RaskStatelessComponent"))) false ∈ specs) := by
  refine ⟨fun items src name h => import_exists_no_named src name items h, ?_, ?_⟩
  · intro t items id hnn hsf
    have hf := import_exists_no_named (import_source_of t.config) "RaskStatefulComponent"
      items hnn
    have hspecs : ∃ tail, runtime_specifiers t items =
        ImportSpecifier.named id
          (some (ModuleExportName.identME (quote_ident "RaskStatefulComponent"))) false
          :: tail := by
      unfold runtime_specifiers
      rw [hsf]
      simp [hf]
    obtain ⟨tail, hspecs⟩ := hspecs
    refine ⟨runtime_specifiers t items, ?_, ?_⟩
    · simp [inject_runtime, hspecs]
    · rw [hspecs]
      exact List.mem_cons_self _ _
  · intro t items id hnn hsl
    have hl := import_exists_no_named (import_source_of t.config) "RaskStatelessComponent"
      items hnn
    have hspecs : ∃ front, runtime_specifiers t items =
        front ++ [ImportSpecifier.named id
          (some (ModuleExportName.identME (quote_ident "RaskStatelessComponent"))) false] := by
      unfold runtime_specifiers
      rw [hsl]
      simp [hl]
    obtain ⟨front, hspecs⟩ := hspecs
    refine ⟨runtime_specifiers t items, ?_, ?_⟩
    · have hne : (runtime_specifiers t items).isEmpty = false := by
        rw [hspecs]
        simp
      simp [inject_runtime, hne]
    · rw [hspecs]
      exact List.mem_append_right _ (List.mem_cons_self _ _)

/-- Witness for C10: a default import of the base-class name from `"rask-ui"`
is not treated as existing, and the named specifier is still injected. -/
theorem C10_witness :
    no_named_specifier
        [ModuleItem.importDecl
          [ImportSpecifier.defaultS (quote_ident "RaskStatefulComponent")] "rask-ui" false]
      = true ∧
    (import_exists
        [ModuleItem.importDecl
          [ImportSpecifier.defaultS (quote_ident "RaskStatefulComponent")] "rask-ui" false]
        "rask-ui" "RaskStatefulComponent") = false ∧
    ∃ specs,
      inject_runtime ⟨⟨none⟩, some (private_ident "RaskStatefulComponent"), none⟩
          [ModuleItem.importDecl
            [ImportSpecifier.defaultS (quote_ident "RaskStatefulComponent")] "rask-ui" false] =
        ModuleItem.importDecl specs "rask-ui" false ::
          [ModuleItem.importDecl
            [ImportSpecifier.defaultS (quote_ident "RaskStatefulComponent")] "rask-ui" false] ∧
      ImportSpecifier.named (private_ident "RaskStatefulComponent")
        (some (ModuleExportName.identME (quote_ident "RaskStatefulComponent"))) false ∈ specs := by
  obtain ⟨h1, h2, h3⟩ := C10_existence_check_only_named_specifiers
  exact ⟨rfl,
    h1 [ModuleItem.importDecl
      [ImportSpecifier.defaultS (quote_ident "RaskStatefulComponent")] "rask-ui" false]
      "rask-ui" "RaskStatefulComponent" rfl,
    h2 ⟨⟨none⟩, some (private_ident "RaskStatefulComponent"), none⟩
      [ModuleItem.importDecl
        [ImportSpecifier.defaultS (quote_ident "RaskStatefulComponent")] "rask-ui" false]
      (private_ident "RaskStatefulComponent") rfl rfl⟩

/-!
Identity of the walk on candidate-free trees
-/

/-- The declarator-rewriting loop changes nothing on candidate-free
declarators. -/
theorem var_decl_rewrite_no_cand :
    ∀ (ds : List VarDeclarator) (t : RaskComponentTransform),
      declarators_no_cand ds = true → var_decl_rewrite t ds = (t, ds) := by
  intro ds
  induction ds with
  | nil => intro t _; rfl
  | cons d rest ih =>
      intro t h
      simp only [declarators_no_cand, Bool.and_eq_true] at h
      obtain ⟨h1, h2⟩ := h
      cases d with
      | mk name init =>
          cases init with
          | none => simp [var_decl_rewrite, ih t h2]
          | some e =>
              cases e with
              | arrow a =>
                  simp only [declarator_no_cand, Bool.and_eq_true, Bool.not_eq_eq_eq_not,
                    Bool.not_true] at h1
                  obtain ⟨hp, _⟩ := h1
                  simp [var_decl_rewrite, hp, ih t h2]
              | callExpr callee args => simp [var_decl_rewrite, ih t h2]
              | identE id => simp [var_decl_rewrite, ih t h2]
              | lit v => simp [var_decl_rewrite, ih t h2]
              | paren pe => simp [var_decl_rewrite, ih t h2]
              | cond a b c => simp [var_decl_rewrite, ih t h2]
              | bin op l r => simp [var_decl_rewrite, ih t h2]
              | array elems => simp [var_decl_rewrite, ih t h2]
              | member obj prop => simp [var_decl_rewrite, ih t h2]
              | unary op arg => simp [var_decl_rewrite, ih t h2]
              | fnExpr io f => simp [var_decl_rewrite, ih t h2]
              | classE ce => simp [var_decl_rewrite, ih t h2]
              | taggedTpl tag => simp [var_decl_rewrite, ih t h2]
              | otherExpr => simp [var_decl_rewrite, ih t h2]

/-- On candidate-free trees the entire walk is the identity, for every fuel
and state: nothing is rewritten and the state (hence the set of created
bindings) is unchanged.  Proved for all sixteen visit functions at once by
induction on the fuel. -/
theorem visit_no_cand_id : ∀ n : Nat,
    (∀ t e, expr_no_cand e = true → visit_mut_expr n t e = (t, e)) ∧
    (∀ t l, exprs_no_cand l = true → visit_mut_expr_list n t l = (t, l)) ∧
    (∀ t oe, opt_expr_no_cand oe = true → visit_mut_opt_expr n t oe = (t, oe)) ∧
    (∀ t l, elems_no_cand l = true → visit_mut_elem_list n t l = (t, l)) ∧
    (∀ t f, function_no_cand f = true → visit_mut_function n t f = (t, f)) ∧
    (∀ t s, stmt_no_cand s = true → visit_mut_stmt n t s = (t, s)) ∧
    (∀ t s, stmt_no_cand s = true → stmt_children n t s = (t, s)) ∧
    (∀ t l, stmts_no_cand l = true → visit_mut_stmt_list n t l = (t, l)) ∧
    (∀ t cs, cases_no_cand cs = true → visit_mut_case_list n t cs = (t, cs)) ∧
    (∀ t d, decl_no_cand d = true → visit_mut_decl n t d = (t, d)) ∧
    (∀ t ds, declarators_no_cand ds = true → visit_mut_declarator_list n t ds = (t, ds)) ∧
    (∀ t c, class_no_cand c = true → class_children n t c = (t, c)) ∧
    (∀ t ms, members_no_cand ms = true → visit_mut_member_list n t ms = (t, ms)) ∧
    (∀ t item, module_item_no_cand item = true → visit_mut_module_item n t item = (t, item)) ∧
    (∀ t item, module_item_no_cand item = true → module_item_children n t item = (t, item)) ∧
    (∀ t items, items_no_cand items = true → visit_mut_module_items n t items = (t, items)) := by
  intro n
  induction n with
  | zero =>
      exact ⟨fun t _ _ => rfl, fun t _ _ => rfl, fun t _ _ => rfl, fun t _ _ => rfl,
        fun t _ _ => rfl, fun t _ _ => rfl, fun t _ _ => rfl, fun t _ _ => rfl,
        fun t _ _ => rfl, fun t _ _ => rfl, fun t _ _ => rfl, fun t _ _ => rfl,
        fun t _ _ => rfl, fun t _ _ => rfl, fun t _ _ => rfl, fun t _ _ => rfl⟩
  | succ n ih =>
      obtain ⟨ihE, ihEL, ihOE, ihAL, ihF, ihS, ihSC, ihSL, ihCL, ihD, ihDL,
        ihCC, ihML, ihMI, ihMIC, ihMIS⟩ := ih
      have hExpr : ∀ t e, expr_no_cand e = true → visit_mut_expr (n + 1) t e = (t, e) := by
        intro t e h
        cases e with
        | callExpr callee args =>
            simp only [expr_no_cand, Bool.and_eq_true] at h
            obtain ⟨h1, h2⟩ := h
            cases callee with
            | expr ce =>
                simp only [callee_no_cand] at h1
                simp [visit_mut_expr, ihE t ce h1, ihEL t args h2]
            | superCallee => simp [visit_mut_expr, ihEL t args h2]
            | importCallee => simp [visit_mut_expr, ihEL t args h2]
        | identE id => rfl
        | lit v => rfl
        | paren pe =>
            simp only [expr_no_cand] at h
            simp [visit_mut_expr, ihE t pe h]
        | cond c1 c2 c3 =>
            simp only [expr_no_cand, Bool.and_eq_true] at h
            obtain ⟨⟨h1, h2⟩, h3⟩ := h
            simp [visit_mut_expr, ihE t c1 h1, ihE t c2 h2, ihE t c3 h3]
        | bin op l r =>
            simp only [expr_no_cand, Bool.and_eq_true] at h
            obtain ⟨h1, h2⟩ := h
            simp [visit_mut_expr, ihE t l h1, ihE t r h2]
        | array elems =>
            simp only [expr_no_cand] at h
            simp [visit_mut_expr, ihAL t elems h]
        | arrow a =>
            cases a with
            | mk params body ia ig =>
                simp only [expr_no_cand] at h
                cases body with
                | blockStmt stmts =>
                    simp only [arrow_body_no_cand] at h
                    simp [visit_mut_expr, ihSL t stmts h]
                | expr be =>
                    simp only [arrow_body_no_cand] at h
                    simp [visit_mut_expr, ihE t be h]
        | member obj prop =>
            simp only [expr_no_cand] at h
            simp [visit_mut_expr, ihE t obj h]
        | unary op arg =>
            simp only [expr_no_cand] at h
            simp [visit_mut_expr, ihE t arg h]
        | fnExpr io f =>
            simp only [expr_no_cand] at h
            simp [visit_mut_expr, ihF t f h]
        | classE ce =>
            cases ce with
            | mk io c =>
                simp only [expr_no_cand] at h
                simp [visit_mut_expr, ihCC t c h]
        | taggedTpl tag =>
            simp only [expr_no_cand] at h
            simp [visit_mut_expr, ihE t tag h]
        | otherExpr => rfl
      have hExprList : ∀ t l, exprs_no_cand l = true →
          visit_mut_expr_list (n + 1) t l = (t, l) := by
        intro t l h
        cases l with
        | nil => rfl
        | cons e rest =>
            simp only [exprs_no_cand, Bool.and_eq_true] at h
            obtain ⟨h1, h2⟩ := h
            simp [visit_mut_expr_list, ihE t e h1, ihEL t rest h2]
      have hOptExpr : ∀ t oe, opt_expr_no_cand oe = true →
          visit_mut_opt_expr (n + 1) t oe = (t, oe) := by
        intro t oe h
        cases oe with
        | none => rfl
        | some e =>
            simp only [opt_expr_no_cand] at h
            simp [visit_mut_opt_expr, ihE t e h]
      have hElemList : ∀ t l, elems_no_cand l = true →
          visit_mut_elem_list (n + 1) t l = (t, l) := by
        intro t l h
        cases l with
        | nil => rfl
        | cons oe rest =>
            simp only [elems_no_cand, Bool.and_eq_true] at h
            obtain ⟨h1, h2⟩ := h
            simp [visit_mut_elem_list, ihOE t oe h1, ihAL t rest h2]
      have hFunction : ∀ t f, function_no_cand f = true →
          visit_mut_function (n + 1) t f = (t, f) := by
        intro t f h
        cases f with
        | mk params body g a =>
            cases body with
            | none => rfl
            | some stmts =>
                simp only [function_no_cand] at h
                simp [visit_mut_function, ihSL t stmts h]
      have hStmtChildren : ∀ t s, stmt_no_cand s = true →
          stmt_children (n + 1) t s = (t, s) := by
        intro t s h
        cases s with
        | ret arg =>
            simp only [stmt_no_cand] at h
            simp [stmt_children, ihOE t arg h]
        | declS d =>
            simp only [stmt_no_cand] at h
            simp [stmt_children, ihD t d h]
        | ifS test cons alt =>
            simp only [stmt_no_cand, Bool.and_eq_true] at h
            obtain ⟨⟨h1, h2⟩, h3⟩ := h
            cases alt with
            | none => simp [stmt_children, ihE t test h1, ihS t cons h2]
            | some a =>
                simp only [opt_stmt_no_cand] at h3
                simp [stmt_children, ihE t test h1, ihS t cons h2, ihS t a h3]
        | block stmts =>
            simp only [stmt_no_cand] at h
            simp [stmt_children, ihSL t stmts h]
        | switchS disc cases =>
            simp only [stmt_no_cand, Bool.and_eq_true] at h
            obtain ⟨h1, h2⟩ := h
            simp [stmt_children, ihE t disc h1, ihCL t cases h2]
        | tryS blk handler finalizer =>
            simp only [stmt_no_cand, Bool.and_eq_true] at h
            obtain ⟨⟨h1, h2⟩, h3⟩ := h
            cases handler with
            | none =>
                cases finalizer with
                | none => simp [stmt_children, ihSL t blk h1]
                | some fb =>
                    simp only [opt_stmts_no_cand] at h3
                    simp [stmt_children, ihSL t blk h1, ihSL t fb h3]
            | some hb =>
                simp only [opt_stmts_no_cand] at h2
                cases finalizer with
                | none => simp [stmt_children, ihSL t blk h1, ihSL t hb h2]
                | some fb =>
                    simp only [opt_stmts_no_cand] at h3
                    simp [stmt_children, ihSL t blk h1, ihSL t hb h2, ihSL t fb h3]
        | forS body =>
            simp only [stmt_no_cand] at h
            simp [stmt_children, ihS t body h]
        | forInS body =>
            simp only [stmt_no_cand] at h
            simp [stmt_children, ihS t body h]
        | forOfS body =>
            simp only [stmt_no_cand] at h
            simp [stmt_children, ihS t body h]
        | whileS test body =>
            simp only [stmt_no_cand, Bool.and_eq_true] at h
            obtain ⟨h1, h2⟩ := h
            simp [stmt_children, ihE t test h1, ihS t body h2]
        | doWhileS body test =>
            simp only [stmt_no_cand, Bool.and_eq_true] at h
            obtain ⟨h1, h2⟩ := h
            simp [stmt_children, ihS t body h1, ihE t test h2]
        | labeled lbl body =>
            simp only [stmt_no_cand] at h
            simp [stmt_children, ihS t body h]
        | exprStmt e =>
            simp only [stmt_no_cand] at h
            simp [stmt_children, ihE t e h]
        | otherStmt => rfl
      have hStmt : ∀ t s, stmt_no_cand s = true → visit_mut_stmt (n + 1) t s = (t, s) := by
        intro t s h
        cases s with
        | declS d =>
            cases d with
            | fnD ident func =>
                have hp : (is_rask_component func || is_stateless_component func) = false := by
                  have h1 := h
                  simp only [stmt_no_cand, decl_no_cand, Bool.and_eq_true,
                    Bool.not_eq_eq_eq_not, Bool.not_true] at h1
                  exact h1.1
                rw [Bool.or_eq_false_iff] at hp
                simp only [visit_mut_stmt, hp.1, hp.2, Bool.false_eq_true, if_false]
                exact ihSC t _ h
            | varD ds =>
                have hds : declarators_no_cand ds = true := by
                  simpa only [stmt_no_cand, decl_no_cand] using h
                simp only [visit_mut_stmt, var_decl_rewrite_no_cand ds t hds]
                exact ihSC t _ h
            | classD ident cls =>
                simp only [visit_mut_stmt]
                exact ihSC t _ h
            | otherDecl =>
                simp only [visit_mut_stmt]
                exact ihSC t _ h
        | ret arg => simp only [visit_mut_stmt]; exact ihSC t _ h
        | ifS a b c => simp only [visit_mut_stmt]; exact ihSC t _ h
        | block stmts => simp only [visit_mut_stmt]; exact ihSC t _ h
        | switchS a b => simp only [visit_mut_stmt]; exact ihSC t _ h
        | tryS a b c => simp only [visit_mut_stmt]; exact ihSC t _ h
        | forS b => simp only [visit_mut_stmt]; exact ihSC t _ h
        | forInS b => simp only [visit_mut_stmt]; exact ihSC t _ h
        | forOfS b => simp only [visit_mut_stmt]; exact ihSC t _ h
        | whileS a b => simp only [visit_mut_stmt]; exact ihSC t _ h
        | doWhileS a b => simp only [visit_mut_stmt]; exact ihSC t _ h
        | labeled a b => simp only [visit_mut_stmt]; exact ihSC t _ h
        | exprStmt e => simp only [visit_mut_stmt]; exact ihSC t _ h
        | otherStmt => simp only [visit_mut_stmt]; exact ihSC t _ h
      have hStmtList : ∀ t l, stmts_no_cand l = true →
          visit_mut_stmt_list (n + 1) t l = (t, l) := by
        intro t l h
        cases l with
        | nil => rfl
        | cons s rest =>
            simp only [stmts_no_cand, Bool.and_eq_true] at h
            obtain ⟨h1, h2⟩ := h
            simp [visit_mut_stmt_list, ihS t s h1, ihSL t rest h2]
      have hCaseList : ∀ t cs, cases_no_cand cs = true →
          visit_mut_case_list (n + 1) t cs = (t, cs) := by
        intro t cs h
        cases cs with
        | nil => rfl
        | cons c rest =>
            cases c with
            | mk test cons =>
                simp only [cases_no_cand, Bool.and_eq_true] at h
                obtain ⟨⟨h1, h2⟩, h3⟩ := h
                simp [visit_mut_case_list, ihOE t test h1, ihSL t cons h2, ihCL t rest h3]
      have hDecl : ∀ t d, decl_no_cand d = true → visit_mut_decl (n + 1) t d = (t, d) := by
        intro t d h
        cases d with
        | fnD ident func =>
            simp only [decl_no_cand, Bool.and_eq_true] at h
            simp [visit_mut_decl, ihF t func h.2]
        | varD ds =>
            simp only [decl_no_cand] at h
            simp [visit_mut_decl, ihDL t ds h]
        | classD ident cls =>
            simp only [decl_no_cand] at h
            simp [visit_mut_decl, ihCC t cls h]
        | otherDecl => rfl
      have hDeclList : ∀ t ds, declarators_no_cand ds = true →
          visit_mut_declarator_list (n + 1) t ds = (t, ds) := by
        intro t ds h
        cases ds with
        | nil => rfl
        | cons d rest =>
            simp only [declarators_no_cand, Bool.and_eq_true] at h
            obtain ⟨h1, h2⟩ := h
            cases d with
            | mk name init =>
                have hinit : opt_expr_no_cand init = true := by
                  cases init with
                  | none => rfl
                  | some e =>
                      cases e with
                      | arrow a =>
                          simp only [declarator_no_cand, Bool.and_eq_true] at h1
                          simpa only [opt_expr_no_cand, expr_no_cand] using h1.2
                      | callExpr callee args => exact h1
                      | identE id => exact h1
                      | lit v => exact h1
                      | paren pe => exact h1
                      | cond a b c => exact h1
                      | bin op l r => exact h1
                      | array elems => exact h1
                      | member obj prop => exact h1
                      | unary op arg => exact h1
                      | fnExpr io f => exact h1
                      | classE ce => exact h1
                      | taggedTpl tag => exact h1
                      | otherExpr => exact h1
                simp [visit_mut_declarator_list, ihOE t init hinit, ihDL t rest h2]
      have hClass : ∀ t c, class_no_cand c = true → class_children (n + 1) t c = (t, c) := by
        intro t c h
        cases c with
        | mk body sup isAbs =>
            simp only [class_no_cand, Bool.and_eq_true] at h
            obtain ⟨h1, h2⟩ := h
            simp [class_children, ihML t body h1, ihOE t sup h2]
      have hMemberList : ∀ t ms, members_no_cand ms = true →
          visit_mut_member_list (n + 1) t ms = (t, ms) := by
        intro t ms h
        cases ms with
        | nil => rfl
        | cons m rest =>
            cases m with
            | classProp key value isStatic =>
                simp only [members_no_cand, Bool.and_eq_true] at h
                obtain ⟨h1, h2⟩ := h
                simp [visit_mut_member_list, ihOE t value h1, ihML t rest h2]
            | otherMember =>
                simp only [members_no_cand] at h
                simp [visit_mut_member_list, ihML t rest h]
      have hItemChildren : ∀ t item, module_item_no_cand item = true →
          module_item_children (n + 1) t item = (t, item) := by
        intro t item h
        cases item with
        | stmt s =>
            simp only [module_item_no_cand] at h
            simp [module_item_children, ihS t s h]
        | importDecl specs src ty => rfl
        | exportDefaultDecl d =>
            cases d with
            | fnED io func =>
                simp only [module_item_no_cand, Bool.and_eq_true] at h
                simp [module_item_children, ihF t func h.2]
            | classED ce =>
                cases ce with
                | mk io cls =>
                    simp only [module_item_no_cand] at h
                    simp [module_item_children, ihCC t cls h]
            | otherED => rfl
        | exportDefaultExpr e =>
            have he : expr_no_cand e = true := by
              cases e with
              | arrow a =>
                  simp only [module_item_no_cand, Bool.and_eq_true] at h
                  exact h.2
              | callExpr callee args => exact h
              | identE id => exact h
              | lit v => exact h
              | paren pe => exact h
              | cond a b c => exact h
              | bin op l r => exact h
              | array elems => exact h
              | member obj prop => exact h
              | unary op arg => exact h
              | fnExpr io f => exact h
              | classE ce => exact h
              | taggedTpl tag => exact h
              | otherExpr => exact h
            simp [module_item_children, ihE t e he]
        | exportDecl d =>
            simp only [module_item_no_cand] at h
            simp [module_item_children, ihD t d h]
        | otherModuleDecl => rfl
      have hItem : ∀ t item, module_item_no_cand item = true →
          visit_mut_module_item (n + 1) t item = (t, item) := by
        intro t item h
        cases item with
        | stmt s =>
            cases s with
            | declS d =>
                cases d with
                | fnD ident func =>
                    have hp : (is_rask_component func ||
                        is_stateless_component func) = false := by
                      have h1 := h
                      simp only [module_item_no_cand, stmt_no_cand, decl_no_cand,
                        Bool.and_eq_true, Bool.not_eq_eq_eq_not, Bool.not_true] at h1
                      exact h1.1
                    rw [Bool.or_eq_false_iff] at hp
                    simp only [visit_mut_module_item, hp.1, hp.2, Bool.false_eq_true, if_false]
                    exact ihMIC t _ h
                | varD ds => simp only [visit_mut_module_item]; exact ihMIC t _ h
                | classD ident cls => simp only [visit_mut_module_item]; exact ihMIC t _ h
                | otherDecl => simp only [visit_mut_module_item]; exact ihMIC t _ h
            | ret arg => simp only [visit_mut_module_item]; exact ihMIC t _ h
            | ifS a b c => simp only [visit_mut_module_item]; exact ihMIC t _ h
            | block stmts => simp only [visit_mut_module_item]; exact ihMIC t _ h
            | switchS a b => simp only [visit_mut_module_item]; exact ihMIC t _ h
            | tryS a b c => simp only [visit_mut_module_item]; exact ihMIC t _ h
            | forS b => simp only [visit_mut_module_item]; exact ihMIC t _ h
            | forInS b => simp only [visit_mut_module_item]; exact ihMIC t _ h
            | forOfS b => simp only [visit_mut_module_item]; exact ihMIC t _ h
            | whileS a b => simp only [visit_mut_module_item]; exact ihMIC t _ h
            | doWhileS a b => simp only [visit_mut_module_item]; exact ihMIC t _ h
            | labeled a b => simp only [visit_mut_module_item]; exact ihMIC t _ h
            | exprStmt e => simp only [visit_mut_module_item]; exact ihMIC t _ h
            | otherStmt => simp only [visit_mut_module_item]; exact ihMIC t _ h
        | importDecl specs src ty => simp only [visit_mut_module_item]; exact ihMIC t _ h
        | exportDefaultDecl d =>
            cases d with
            | fnED io func =>
                have hp : (is_rask_component func || is_stateless_component func) = false := by
                  have h1 := h
                  simp only [module_item_no_cand, Bool.and_eq_true,
                    Bool.not_eq_eq_eq_not, Bool.not_true] at h1
                  exact h1.1
                simp only [visit_mut_module_item, hp, Bool.false_eq_true, if_false]
                exact ihMIC t _ h
            | classED ce => simp only [visit_mut_module_item]; exact ihMIC t _ h
            | otherED => simp only [visit_mut_module_item]; exact ihMIC t _ h
        | exportDefaultExpr e =>
            cases e with
            | arrow a =>
                have hp : (is_rask_component (arrow_to_function a) ||
                    is_stateless_component (arrow_to_function a)) = false := by
                  have h1 := h
                  simp only [module_item_no_cand, Bool.and_eq_true,
                    Bool.not_eq_eq_eq_not, Bool.not_true] at h1
                  exact h1.1
                simp only [visit_mut_module_item, hp, Bool.false_eq_true, if_false]
                exact ihMIC t _ h
            | callExpr callee args => simp only [visit_mut_module_item]; exact ihMIC t _ h
            | identE id => simp only [visit_mut_module_item]; exact ihMIC t _ h
            | lit v => simp only [visit_mut_module_item]; exact ihMIC t _ h
            | paren pe => simp only [visit_mut_module_item]; exact ihMIC t _ h
            | cond a b c => simp only [visit_mut_module_item]; exact ihMIC t _ h
            | bin op l r => simp only [visit_mut_module_item]; exact ihMIC t _ h
            | array elems => simp only [visit_mut_module_item]; exact ihMIC t _ h
            | member obj prop => simp only [visit_mut_module_item]; exact ihMIC t _ h
            | unary op arg => simp only [visit_mut_module_item]; exact ihMIC t _ h
            | fnExpr io f => simp only [visit_mut_module_item]; exact ihMIC t _ h
            | classE ce => simp only [visit_mut_module_item]; exact ihMIC t _ h
            | taggedTpl tag => simp only [visit_mut_module_item]; exact ihMIC t _ h
            | otherExpr => simp only [visit_mut_module_item]; exact ihMIC t _ h
        | exportDecl d =>
            cases d with
            | fnD ident func =>
                have hp : (is_rask_component func || is_stateless_component func) = false := by
                  have h1 := h
                  simp only [module_item_no_cand, decl_no_cand, Bool.and_eq_true,
                    Bool.not_eq_eq_eq_not, Bool.not_true] at h1
                  exact h1.1
                rw [Bool.or_eq_false_iff] at hp
                simp only [visit_mut_module_item, hp.1, hp.2, Bool.false_eq_true, if_false]
                exact ihMIC t _ h
            | varD ds => simp only [visit_mut_module_item]; exact ihMIC t _ h
            | classD ident cls => simp only [visit_mut_module_item]; exact ihMIC t _ h
            | otherDecl => simp only [visit_mut_module_item]; exact ihMIC t _ h
        | otherModuleDecl => simp only [visit_mut_module_item]; exact ihMIC t _ h
      have hItems : ∀ t items, items_no_cand items = true →
          visit_mut_module_items (n + 1) t items = (t, items) := by
        intro t items h
        cases items with
        | nil => rfl
        | cons item rest =>
            simp only [items_no_cand, Bool.and_eq_true] at h
            obtain ⟨h1, h2⟩ := h
            simp [visit_mut_module_items, ihMI t item h1, ihMIS t rest h2]
      exact ⟨hExpr, hExprList, hOptExpr, hElemList, hFunction, hStmt, hStmtChildren,
        hStmtList, hCaseList, hDecl, hDeclList, hClass, hMemberList, hItem,
        hItemChildren, hItems⟩

/-- Without an `"inferno"` import the source-rewriting pass changes nothing. -/
theorem rewrite_inferno_imports_no_inferno (t : RaskComponentTransform) :
    ∀ items : Module, module_has_inferno_import items = false →
      rewrite_inferno_imports t items = items := by
  intro items
  induction items with
  | nil => intro _; rfl
  | cons item rest ih =>
      intro h
      simp only [module_has_inferno_import, List.any_cons, Bool.or_eq_false_iff] at h
      obtain ⟨h1, h2⟩ := h
      have hr : rewrite_inferno_imports t rest = rest := ih h2
      simp only [rewrite_inferno_imports, List.map_cons] at hr ⊢
      cases item with
      | importDecl specs src ty =>
          simp only [beq_eq_false_iff_ne, ne_eq] at h1
          simp [h1, hr]
      | stmt s => simp [hr]
      | exportDefaultDecl d => simp [hr]
      | exportDefaultExpr e => simp [hr]
      | exportDecl d => simp [hr]
      | otherModuleDecl => simp [hr]

/-- On a candidate-free module with no `"inferno"` import, the whole transform
is the identity: nothing is rewritten, the binding slots stay empty, and no
injection happens. -/
theorem process_transform_no_cand_id (fuel : Nat) (cfg : Config) (m : Module)
    (hnc : items_no_cand m = true) (hinf : module_has_inferno_import m = false) :
    process_transform fuel cfg m = m := by
  cases fuel with
  | zero => rfl
  | succ n =>
      have hid := (visit_no_cand_id n).2.2.2.2.2.2.2.2.2.2.2.2.2.2.2
        (RaskComponentTransform.new cfg) m hnc
      have hrw := rewrite_inferno_imports_no_inferno (RaskComponentTransform.new cfg) m hinf
      have hinj : inject_runtime (RaskComponentTransform.new cfg) m = m := by
        simp [inject_runtime, runtime_specifiers, RaskComponentTransform.new]
      simp [process_transform, visit_mut_module, hid, hrw, hinj]

/-- C7 (amended): in a module where no declaration matches either
classification, the transform rewrites no declaration and injects no import;
but imports from `"inferno"` are still rewritten, so the module is returned
completely unchanged exactly when it additionally has no `"inferno"` import. -/
theorem C7_no_match_module_unchanged (fuel : Nat) (cfg : Config) (m : Module)
    (hnc : items_no_cand m = true) (hinf : module_has_inferno_import m = false) :
    process_transform fuel cfg m = m :=
  process_transform_no_cand_id fuel cfg m hnc hinf

/-- Witness for C7 (amended): a one-statement candidate-free module passes
through unchanged. -/
theorem C7_witness :
    items_no_cand [ModuleItem.stmt Stmt.otherStmt] = true ∧
    module_has_inferno_import [ModuleItem.stmt Stmt.otherStmt] = false ∧
    process_transform 100 ⟨none⟩ [ModuleItem.stmt Stmt.otherStmt] =
      [ModuleItem.stmt Stmt.otherStmt] :=
  ⟨rfl, rfl, C7_no_match_module_unchanged 100 ⟨none⟩ [ModuleItem.stmt Stmt.otherStmt] rfl rfl⟩

/-- C6 (amended): the transform is idempotent whenever its first run leaves no
candidate behind (and its output has no `"inferno"` import): rewritten classes
are never re-classified and no further import is injected.  It is not
idempotent in general — see the counterexample, where a candidate nested
inside a matched top-level function declaration survives the first run and is
rewritten by the second. -/
theorem C6_idempotent_when_no_candidates_remain (fuel : Nat) (cfg : Config) (m : Module)
    (hnc : items_no_cand (process_transform fuel cfg m) = true)
    (hinf : module_has_inferno_import (process_transform fuel cfg m) = false) :
    process_transform fuel cfg (process_transform fuel cfg m) =
      process_transform fuel cfg m :=
  process_transform_no_cand_id fuel cfg (process_transform fuel cfg m) hnc hinf

/-- Witness for C6 (amended): the output of the Counter scenario is a fixpoint. -/
theorem C6_witness :
    items_no_cand (process_transform 100 ⟨none⟩ counterModule) = true ∧
    module_has_inferno_import (process_transform 100 ⟨none⟩ counterModule) = false ∧
    process_transform 100 ⟨none⟩ (process_transform 100 ⟨none⟩ counterModule) =
      process_transform 100 ⟨none⟩ counterModule :=
  ⟨rfl, rfl, C6_idempotent_when_no_candidates_remain 100 ⟨none⟩ counterModule rfl rfl⟩

/-!
Claim C5 (amended): shape preservation when a rewritten class is revisited

The statement visitor re-enters the class produced for a statement-level
candidate (second pass of `visit_mut_function`); these lemmas show that the
revisit can only rewrite inside the stored function value, never the class
skeleton, its property key or its superclass.
-/

/-- Identifiers are fixed points of the expression visitor. -/
theorem visit_mut_expr_identE (n : Nat) (t : RaskComponentTransform) (id : Ident) :
    visit_mut_expr n t (Expr.identE id) = (t, Expr.identE id) := by
  cases n <;> rfl

/-- An optional identifier expression is left unchanged. -/
theorem visit_mut_opt_expr_identE (n : Nat) (t : RaskComponentTransform) (id : Ident) :
    visit_mut_opt_expr n t (some (Expr.identE id)) = (t, some (Expr.identE id)) := by
  cases n with
  | zero => rfl
  | succ n => simp [visit_mut_opt_expr, visit_mut_expr_identE]

/-- The empty member list is a fixed point. -/
theorem visit_mut_member_list_nil (n : Nat) (t : RaskComponentTransform) :
    visit_mut_member_list n t [] = (t, []) := by
  cases n <;> rfl

/-- Visiting a function expression only rewrites the wrapped function. -/
theorem visit_mut_expr_fnExpr_shape (n : Nat) (t : RaskComponentTransform)
    (io : Option Ident) (f : Function) :
    ∃ t2 f2, visit_mut_expr n t (Expr.fnExpr io f) = (t2, Expr.fnExpr io f2) := by
  cases n with
  | zero => exact ⟨t, f, rfl⟩
  | succ n =>
      rcases h : visit_mut_function n t f with ⟨t2, f2⟩
      exact ⟨t2, f2, by simp [visit_mut_expr, h]⟩

/-- Visiting an optional function expression only rewrites the function. -/
theorem visit_mut_opt_expr_fnExpr_shape (n : Nat) (t : RaskComponentTransform)
    (io : Option Ident) (f : Function) :
    ∃ t2 f2, visit_mut_opt_expr n t (some (Expr.fnExpr io f)) =
      (t2, some (Expr.fnExpr io f2)) := by
  cases n with
  | zero => exact ⟨t, f, rfl⟩
  | succ n =>
      obtain ⟨t2, f2, h⟩ := visit_mut_expr_fnExpr_shape n t io f
      exact ⟨t2, f2, by simp [visit_mut_opt_expr, h]⟩

/-- Visiting a one-property member list holding a function expression keeps
the key and staticness, rewriting only the function. -/
theorem visit_mut_member_list_shape (n : Nat) (t : RaskComponentTransform)
    (k : String) (io : Option Ident) (f : Function) :
    ∃ t2 f2, visit_mut_member_list n t
        [ClassMember.classProp k (some (Expr.fnExpr io f)) false] =
      (t2, [ClassMember.classProp k (some (Expr.fnExpr io f2)) false]) := by
  cases n with
  | zero => exact ⟨t, f, rfl⟩
  | succ n =>
      obtain ⟨t2, f2, h⟩ := visit_mut_opt_expr_fnExpr_shape n t io f
      exact ⟨t2, f2, by simp [visit_mut_member_list, h, visit_mut_member_list_nil]⟩

/-- Re-entering a produced class keeps its skeleton and superclass. -/
theorem class_children_shape (n : Nat) (t : RaskComponentTransform)
    (k : String) (io : Option Ident) (f : Function) (sup : Ident) :
    ∃ t2 f2, class_children n t (Class.mk
        [ClassMember.classProp k (some (Expr.fnExpr io f)) false]
        (some (Expr.identE sup)) false) =
      (t2, Class.mk [ClassMember.classProp k (some (Expr.fnExpr io f2)) false]
        (some (Expr.identE sup)) false) := by
  cases n with
  | zero => exact ⟨t, f, rfl⟩
  | succ n =>
      obtain ⟨t2, f2, h⟩ := visit_mut_member_list_shape n t k io f
      exact ⟨t2, f2, by simp [class_children, h, visit_mut_opt_expr_identE]⟩

/-- Re-entering a produced class declaration keeps its name and skeleton. -/
theorem visit_mut_decl_class_shape (n : Nat) (t : RaskComponentTransform)
    (i : Ident) (k : String) (io : Option Ident) (f : Function) (sup : Ident) :
    ∃ t2 f2, visit_mut_decl n t (Decl.classD i (Class.mk
        [ClassMember.classProp k (some (Expr.fnExpr io f)) false]
        (some (Expr.identE sup)) false)) =
      (t2, Decl.classD i (Class.mk
        [ClassMember.classProp k (some (Expr.fnExpr io f2)) false]
        (some (Expr.identE sup)) false)) := by
  cases n with
  | zero => exact ⟨t, f, rfl⟩
  | succ n =>
      obtain ⟨t2, f2, h⟩ := class_children_shape n t k io f sup
      exact ⟨t2, f2, by simp [visit_mut_decl, h]⟩

/-- Re-visiting a produced class declaration statement (it matches no
candidate arm) keeps the class skeleton. -/
theorem visit_mut_stmt_class_shape (n : Nat) (t : RaskComponentTransform)
    (i : Ident) (k : String) (io : Option Ident) (f : Function) (sup : Ident) :
    ∃ t2 f2, visit_mut_stmt n t (Stmt.declS (Decl.classD i (Class.mk
        [ClassMember.classProp k (some (Expr.fnExpr io f)) false]
        (some (Expr.identE sup)) false))) =
      (t2, Stmt.declS (Decl.classD i (Class.mk
        [ClassMember.classProp k (some (Expr.fnExpr io f2)) false]
        (some (Expr.identE sup)) false))) := by
  cases n with
  | zero => exact ⟨t, f, rfl⟩
  | succ n =>
      cases n with
      | zero => exact ⟨t, f, by simp [visit_mut_stmt, stmt_children]⟩
      | succ n =>
          obtain ⟨t2, f2, h⟩ := visit_mut_decl_class_shape n t i k io f sup
          exact ⟨t2, f2, by simp [visit_mut_stmt, stmt_children, h]⟩

/-- One-step equation of the statement-list traversal on a cons cell. -/
theorem visit_mut_stmt_list_cons (n : Nat) (t : RaskComponentTransform)
    (s : Stmt) (rest : List Stmt) :
    visit_mut_stmt_list (n + 1) t (s :: rest) =
      ((visit_mut_stmt_list n (visit_mut_stmt n t s).1 rest).1,
       (visit_mut_stmt n t s).2 ::
         (visit_mut_stmt_list n (visit_mut_stmt n t s).1 rest).2) := by
  rcases h1 : visit_mut_stmt n t s with ⟨t1, s1⟩
  rcases h2 : visit_mut_stmt_list n t1 rest with ⟨t2, rest2⟩
  simp [visit_mut_stmt_list, h1, h2]

/-- C5 (amended): a stateful candidate declared at statement level inside the
body of a function is found and rewritten into a `setup` class when that
function is visited (the function visitor walks its body statements); the
second pass of the visitor may further rewrite inside the stored function but not
the class skeleton.  This covers candidates nested inside unmatched enclosing
functions; as the counterexample shows, the replacement of a *matched*
module-item-level function declaration is not re-entered, so candidates
nested there are not rewritten in the same run. -/
theorem C5_nested_candidate_rewritten_in_function_body
    (n : Nat) (t : RaskComponentTransform) (params : List Pat) (g a : Bool)
    (i : Ident) (f : Function) (rest : List Stmt)
    (h : is_rask_component f = true) :
    ∃ t2 f2 rest2,
      visit_mut_function (n + 3) t
          (Function.mk params (some (Stmt.declS (Decl.fnD i f) :: rest)) g a) =
        (t2, Function.mk params (some (Stmt.declS (Decl.classD i (Class.mk
          [ClassMember.classProp "setup" (some (Expr.fnExpr (some i) f2)) false]
          (some (Expr.identE (stateful_binding t))) false)) :: rest2)) g a) := by
  have hs1 : visit_mut_stmt (n + 1) t (Stmt.declS (Decl.fnD i f)) =
      ({ t with import_rask_stateful_component := some (stateful_binding t) },
       Stmt.declS (Decl.classD i (Class.mk
         [ClassMember.classProp "setup" (some (Expr.fnExpr (some i) f)) false]
         (some (Expr.identE (stateful_binding t))) false))) := by
    simp [visit_mut_stmt, h, transform_to_stateful_class, stateful_binding]
  rcases hrest1 : visit_mut_stmt_list (n + 1)
      { t with import_rask_stateful_component := some (stateful_binding t) } rest
    with ⟨t2, rest1⟩
  have hpass1 : visit_mut_stmt_list (n + 2) t (Stmt.declS (Decl.fnD i f) :: rest) =
      (t2, Stmt.declS (Decl.classD i (Class.mk
        [ClassMember.classProp "setup" (some (Expr.fnExpr (some i) f)) false]
        (some (Expr.identE (stateful_binding t))) false)) :: rest1) := by
    simp [visit_mut_stmt_list_cons, hs1, hrest1]
  obtain ⟨t3, f3, hs2⟩ :=
    visit_mut_stmt_class_shape (n + 1) t2 i "setup" (some i) f (stateful_binding t)
  rcases hrest2 : visit_mut_stmt_list (n + 1) t3 rest1 with ⟨t4, rest2⟩
  have hpass2 : visit_mut_stmt_list (n + 2) t2
      (Stmt.declS (Decl.classD i (Class.mk
        [ClassMember.classProp "setup" (some (Expr.fnExpr (some i) f)) false]
        (some (Expr.identE (stateful_binding t))) false)) :: rest1) =
      (t4, Stmt.declS (Decl.classD i (Class.mk
        [ClassMember.classProp "setup" (some (Expr.fnExpr (some i) f3)) false]
        (some (Expr.identE (stateful_binding t))) false)) :: rest2) := by
    simp [visit_mut_stmt_list_cons, hs2, hrest2]
  refine ⟨t4, f3, rest2, ?_⟩
  simp [visit_mut_function, hpass1, hpass2]

/-- Witness for C5 (amended): `innerFn` declared inside an otherwise empty
function body is rewritten into a `setup` class by the function visitor. -/
theorem C5_witness :
    is_rask_component innerFn = true ∧
    ∃ t2 f2 rest2,
      visit_mut_function 3 (RaskComponentTransform.new ⟨none⟩)
          (Function.mk []
            (some [Stmt.declS (Decl.fnD (quote_ident "Inner") innerFn)]) false false) =
        (t2, Function.mk [] (some (Stmt.declS (Decl.classD (quote_ident "Inner") (Class.mk
          [ClassMember.classProp "setup"
            (some (Expr.fnExpr (some (quote_ident "Inner")) f2)) false]
          (some (Expr.identE (stateful_binding (RaskComponentTransform.new ⟨none⟩))))
          false)) :: rest2)) false false) :=
  ⟨rfl, C5_nested_candidate_rewritten_in_function_body 0
    (RaskComponentTransform.new ⟨none⟩) [] false false (quote_ident "Inner") innerFn [] rfl⟩

end Rask
